import Mathlib

/-!
# Verification of the diagram editor's connector-binding core

Shallow embedding of the shape model, boundary/connector resolver,
tool actions and history stack of the diagram editor
(`shapes.js`, `connectors.js`, `history.js`, `tools.js`, `utils.js`).

Modelling conventions:
* World coordinates are real numbers (the source uses JS floats; we model
  the intended exact arithmetic over `ℝ`).
* A stored binding angle `θ` (a radian produced by `Math.atan2` and consumed
  only through `Math.cos θ` / `Math.sin θ`) is represented by the pair
  `(cos θ, sin θ)`, i.e. a unit direction vector (`Dir`).  `Math.atan2(dy,dx)`
  is accordingly modelled by `dirOfVec dx dy`, the normalisation
  `(dx, dy) / sqrt (dx² + dy²)`, with `atan2(0,0) = 0 ↦ (1,0)` as in JS.
* Shape `type` strings and handle names are kept as `String`s, matching the
  string dispatch of the source.
* In-place mutation of the shape array is modelled by explicit list passing;
  the loops of `updateBindings` / `resolveAllBindings`, which look up targets
  in the partially-updated array, are modelled by an accumulator pass
  (`bindPassAux`) that reproduces the lookup environment of each iteration.
-/

namespace SysDiag

/-- A 2-D point in world coordinates. -/
@[ext] structure Point where
  x : ℝ
  y : ℝ

/-- A direction: the pair `(cos θ, sin θ)` of a stored binding angle. -/
@[ext] structure Dir where
  c : ℝ
  s : ℝ

/-- `{ shapeId, angle }` of a connector binding (`startBinding`/`endBinding`). -/
@[ext] structure Binding where
  shapeId : String
  angle : Dir

/-- Result record of `Connectors.findNearestBoundaryPoint`. -/
@[ext] structure Snap where
  shapeId : String
  angle : Dir
  x : ℝ
  y : ℝ

/-- `{x, y, w, h}` as returned by `Shapes.getBounds`. -/
@[ext] structure Bounds where
  x : ℝ
  y : ℝ
  w : ℝ
  h : ℝ

/-- The shape record created by `Shapes.create` (`shapes.js`).  Fields are the
defaults-filled property bag of the source; `points` is `null` or an array. -/
@[ext] structure Shape where
  id : String
  type : String
  x : ℝ
  y : ℝ
  width : ℝ
  height : ℝ
  strokeColor : String
  fillColor : String
  strokeWidth : ℝ
  opacity : ℝ
  rotation : ℝ
  points : Option (List Point)
  text : String
  fontSize : ℝ
  fontFamily : String
  textVAlign : String
  arrowHead : Bool
  edgeStyle : String
  strokeDash : String
  shapeFillStyle : String
  startBinding : Option Binding
  endBinding : Option Binding
  seed : ℕ

/-- `Utils.distance`: Euclidean distance between two points. -/
noncomputable def distance (x1 y1 x2 y2 : ℝ) : ℝ :=
  Real.sqrt ((x2 - x1) ^ 2 + (y2 - y1) ^ 2)

/-- The `(cos, sin)` pair of `Math.atan2 dy dx`:
`cos (atan2 dy dx) = dx / sqrt (dx²+dy²)` and
`sin (atan2 dy dx) = dy / sqrt (dx²+dy²)` for `(dx,dy) ≠ (0,0)`;
`atan2 0 0 = 0` in JS, whose pair is `(1, 0)`. -/
noncomputable def dirOfVec (dx dy : ℝ) : Dir :=
  if dx = 0 ∧ dy = 0 then ⟨1, 0⟩
  else ⟨dx / Real.sqrt (dx ^ 2 + dy ^ 2), dy / Real.sqrt (dx ^ 2 + dy ^ 2)⟩

/-- `Shapes.CONTAINER_TYPES` (`shapes.js`). -/
def CONTAINER_TYPES : List String :=
  ["rectangle", "ellipse", "diamond",
   "database", "queue", "cache", "server", "cloud", "firewall",
   "loadbalancer", "apigateway", "cdn", "user", "microservice",
   "pubsub", "storage", "function", "container", "eventbus",
   "browser", "mobile", "monitor", "notification", "auth",
   "externalapi", "scheduler", "logger", "search", "datawarehouse",
   "blobstorage", "filestorage", "queuestorage", "tablestorage",
   "datalake", "manageddisks",
   "azuresql", "cosmosdb", "azuremysql", "azurepostgres",
   "sqlmanaged", "rediscache", "datafactory", "synapse"]

/-- The shape types dispatched to `_rayRectFromCenter` by the explicit
`case` labels of `Shapes.getBoundaryPoint`. -/
def RECT_BOUNDARY_TYPES : List String :=
  ["rectangle", "database", "queue", "cache", "server", "firewall",
   "loadbalancer", "apigateway", "cdn", "pubsub", "storage", "function",
   "container", "eventbus", "browser", "mobile", "monitor", "notification",
   "auth", "externalapi", "scheduler", "logger", "search", "datawarehouse"]

/-- The shape types dispatched to `_rayEllipseFromCenter`. -/
def ELLIPSE_BOUNDARY_TYPES : List String := ["ellipse", "cloud", "user"]

/-- The shape types dispatched to `_rayDiamondFromCenter`. -/
def DIAMOND_BOUNDARY_TYPES : List String := ["diamond", "microservice"]

/-- Bounding box of a nonempty point list: the `min`/`max` fold of
`Shapes.getBounds` (folding from `±Infinity` over a nonempty array equals
folding from the first element). -/
def ptsBds (p : Point) (rest : List Point) : Bounds :=
  let minX := rest.foldl (fun m q => min m q.x) p.x
  let minY := rest.foldl (fun m q => min m q.y) p.y
  let maxX := rest.foldl (fun m q => max m q.x) p.x
  let maxY := rest.foldl (fun m q => max m q.y) p.y
  ⟨minX, minY, maxX - minX, maxY - minY⟩

/-- `Shapes.getBounds` (`shapes.js`): derived box for line/arrow with ≥ 2
points and freehand with ≥ 1 point, stored box otherwise. -/
def getBounds (s : Shape) : Bounds :=
  if s.type = "line" ∨ s.type = "arrow" then
    match s.points with
    | some (p :: q :: rest) => ptsBds p (q :: rest)
    | _ => ⟨s.x, s.y, s.width, s.height⟩
  else if s.type = "freehand" then
    match s.points with
    | some (p :: rest) => ptsBds p rest
    | _ => ⟨s.x, s.y, s.width, s.height⟩
  else ⟨s.x, s.y, s.width, s.height⟩

/-- `Shapes._rayRectFromCenter`. -/
noncomputable def rayRectFromCenter (cx cy tx ty halfW halfH : ℝ) : Point :=
  let dx := tx - cx
  let dy := ty - cy
  if dx = 0 ∧ dy = 0 then ⟨cx + halfW, cy⟩
  else
    let scale := if |dx| / halfW > |dy| / halfH then halfW / |dx| else halfH / |dy|
    ⟨cx + dx * scale, cy + dy * scale⟩

/-- `Shapes._rayEllipseFromCenter`: the source computes
`angle = atan2(dy, dx)` and returns `center + (rx·cos angle, ry·sin angle)`;
with `dirOfVec` as the `(cos, sin)` of `atan2` this is the definition below
(the degenerate `dx = dy = 0` case returns `(cx + rx, cy)` in the source,
which coincides with `dirOfVec 0 0 = (1,0)` here). -/
noncomputable def rayEllipseFromCenter (cx cy tx ty rx ry : ℝ) : Point :=
  let d := dirOfVec (tx - cx) (ty - cy)
  ⟨cx + rx * d.c, cy + ry * d.s⟩

/-- `Shapes._rayDiamondFromCenter`. -/
noncomputable def rayDiamondFromCenter (cx cy tx ty halfW halfH : ℝ) : Point :=
  let dx := tx - cx
  let dy := ty - cy
  if dx = 0 ∧ dy = 0 then ⟨cx, cy - halfH⟩
  else
    let scale := 1 / (|dx| / halfW + |dy| / halfH)
    ⟨cx + dx * scale, cy + dy * scale⟩

/-- `Shapes.getBoundaryPoint` (`shapes.js`): string dispatch to the three
ray intersections; unknown types fall back to the rectangle formula. -/
noncomputable def getBoundaryPoint (s : Shape) (targetX targetY : ℝ) : Point :=
  let b := getBounds s
  let cx := b.x + b.w / 2
  let cy := b.y + b.h / 2
  if s.type ∈ ELLIPSE_BOUNDARY_TYPES then
    rayEllipseFromCenter cx cy targetX targetY (b.w / 2) (b.h / 2)
  else if s.type ∈ DIAMOND_BOUNDARY_TYPES then
    rayDiamondFromCenter cx cy targetX targetY (b.w / 2) (b.h / 2)
  else
    -- explicit rectangle-family cases and the default fallback both
    -- call `_rayRectFromCenter`
    rayRectFromCenter cx cy targetX targetY (b.w / 2) (b.h / 2)

/-- `Shapes.getBoundaryPointFromAngle`: cast a ray toward a point
`far = 10000` units along the stored angle from the current center. -/
noncomputable def getBoundaryPointFromAngle (s : Shape) (a : Dir) : Point :=
  let b := getBounds s
  let cx := b.x + b.w / 2
  let cy := b.y + b.h / 2
  getBoundaryPoint s (cx + a.c * 10000) (cy + a.s * 10000)

/-- `Shapes.move`: translate points if present (JS: any non-null array,
empty included), otherwise the box origin. -/
def moveShape (s : Shape) (dx dy : ℝ) : Shape :=
  match s.points with
  | some ps => { s with points := some (ps.map fun p => ⟨p.x + dx, p.y + dy⟩) }
  | none => { s with x := s.x + dx, y := s.y + dy }

/-- Replace the `i`-th entry of a point list by `f` applied to it
(out-of-range indices leave the list unchanged). -/
def listModify (f : Point → Point) : ℕ → List Point → List Point
  | _, [] => []
  | 0, p :: rest => f p :: rest
  | n + 1, p :: rest => p :: listModify f n rest

/-- `Shapes.resize` (`shapes.js`): handle-directed box/endpoint adjustment
with the final `width, height ≥ 10` clamp on the box path. -/
noncomputable def resizeShape (s : Shape) (handle : String) (dx dy : ℝ) : Shape :=
  if handle = "lineStart" ∧ s.points.isSome then
    match s.points with
    | some ps =>
        { s with points := some (listModify (fun p => ⟨p.x + dx, p.y + dy⟩) 0 ps) }
    | none => s
  else if handle = "lineEnd" ∧ s.points.isSome then
    match s.points with
    | some ps =>
        { s with
          points := some (listModify (fun p => ⟨p.x + dx, p.y + dy⟩) (ps.length - 1) ps) }
    | none => s
  else
    let s1 :=
      if handle = "nw" then
        { s with x := s.x + dx, y := s.y + dy, width := s.width - dx, height := s.height - dy }
      else if handle = "n" then { s with y := s.y + dy, height := s.height - dy }
      else if handle = "ne" then
        { s with width := s.width + dx, y := s.y + dy, height := s.height - dy }
      else if handle = "e" then { s with width := s.width + dx }
      else if handle = "se" then { s with width := s.width + dx, height := s.height + dy }
      else if handle = "s" then { s with height := s.height + dy }
      else if handle = "sw" then
        { s with x := s.x + dx, width := s.width - dx, height := s.height + dy }
      else if handle = "w" then { s with x := s.x + dx, width := s.width - dx }
      else s
    { s1 with width := if s1.width < 10 then 10 else s1.width,
              height := if s1.height < 10 then 10 else s1.height }

/-! ## Connector resolver (`connectors.js`) -/

/-- `Connectors.SNAP_DISTANCE`. -/
def SNAP_DISTANCE : ℝ := 20

/-- The shape types skipped by the candidate loop of
`Connectors.findNearestBoundaryPoint`. -/
def SKIP_TYPES : List String := ["line", "arrow", "freehand", "text"]

/-- The snap record built for a shape whose boundary point toward the query
is `bp`: `{ shapeId, angle := atan2 (bp − center), x := bp.x, y := bp.y }`. -/
noncomputable def mkSnap (s : Shape) (bp : Point) : Snap :=
  let b := getBounds s
  let cx := b.x + b.w / 2
  let cy := b.y + b.h / 2
  ⟨s.id, dirOfVec (bp.x - cx) (bp.y - cy), bp.x, bp.y⟩

/-- The loop of `Connectors.findNearestBoundaryPoint`, carrying the running
`(best, bestDist)` pair (initially `(null, SNAP_DISTANCE)`). -/
noncomputable def fnbpAux (wx wy : ℝ) (excludeIds : List String) :
    List Shape → Option Snap × ℝ → Option Snap × ℝ
  | [], acc => acc
  | s :: rest, (best, bestDist) =>
      if s.id ∈ excludeIds ∨ s.type ∈ SKIP_TYPES then
        fnbpAux wx wy excludeIds rest (best, bestDist)
      else
        let bp := getBoundaryPoint s wx wy
        let d := distance wx wy bp.x bp.y
        if d < bestDist then fnbpAux wx wy excludeIds rest (some (mkSnap s bp), d)
        else fnbpAux wx wy excludeIds rest (best, bestDist)

/-- `Connectors.findNearestBoundaryPoint`. -/
noncomputable def findNearestBoundaryPoint (shapes : List Shape) (wx wy : ℝ)
    (excludeIds : List String) : Option Snap :=
  (fnbpAux wx wy excludeIds shapes (none, SNAP_DISTANCE)).1

/-- `shapes.find(s => s.id === sid)`. -/
def findShape (l : List Shape) (sid : String) : Option Shape :=
  l.find? fun s => s.id = sid

/-- Number of points of a shape (`0` when `points` is `null`). -/
def numPoints (s : Shape) : ℕ :=
  match s.points with
  | some ps => ps.length
  | none => 0

/-- Connector-family test: `shape.type` is `arrow` or `line`. -/
def isConnType (t : String) : Prop :=
  t = "arrow" ∨ t = "line"

instance (t : String) : Decidable (isConnType t) := by
  unfold isConnType; infer_instance

/-- The guard of the binding loops: the shape is a connector
(`arrow`/`line`) with a points array of length ≥ 2. -/
def connOK (s : Shape) : Prop :=
  isConnType s.type ∧ 2 ≤ numPoints s

instance (s : Shape) : Decidable (connOK s) := by
  unfold connOK; infer_instance

/-- `shape.points[0] = pt` (no-op when `points` is `null`). -/
def setPtFirst (s : Shape) (pt : Point) : Shape :=
  match s.points with
  | some ps => { s with points := some (listModify (fun _ => pt) 0 ps) }
  | none => s

/-- `shape.points[shape.points.length - 1] = pt`. -/
def setPtLast (s : Shape) (pt : Point) : Shape :=
  match s.points with
  | some ps => { s with points := some (listModify (fun _ => pt) (ps.length - 1) ps) }
  | none => s

/-- Start-binding step of the `resolveAllBindings` loop body, with `look`
the array as visible at that moment. -/
noncomputable def resolveStart (look : List Shape) (s : Shape) : Shape :=
  match s.startBinding with
  | none => s
  | some b =>
      match findShape look b.shapeId with
      | some t => setPtFirst s (getBoundaryPointFromAngle t b.angle)
      | none => { s with startBinding := none }

/-- End-binding step of the `resolveAllBindings` loop body. -/
noncomputable def resolveEnd (look : List Shape) (s : Shape) : Shape :=
  match s.endBinding with
  | none => s
  | some b =>
      match findShape look b.shapeId with
      | some t => setPtLast s (getBoundaryPointFromAngle t b.angle)
      | none => { s with endBinding := none }

/-- Start-binding step of the `updateBindings` loop body: only bindings whose
target is `movedShapeId` are re-resolved, and nothing is cleared. -/
noncomputable def updateStart (movedShapeId : String) (look : List Shape) (s : Shape) :
    Shape :=
  match s.startBinding with
  | none => s
  | some b =>
      if b.shapeId = movedShapeId then
        match findShape look movedShapeId with
        | some t => setPtFirst s (getBoundaryPointFromAngle t b.angle)
        | none => s
      else s

/-- End-binding step of the `updateBindings` loop body. -/
noncomputable def updateEnd (movedShapeId : String) (look : List Shape) (s : Shape) :
    Shape :=
  match s.endBinding with
  | none => s
  | some b =>
      if b.shapeId = movedShapeId then
        match findShape look movedShapeId with
        | some t => setPtLast s (getBoundaryPointFromAngle t b.angle)
        | none => s
      else s

/-- The in-place `for (const shape of shapes)` loop shared by
`updateBindings` and `resolveAllBindings`: `done` is the already-processed
prefix, and each of the two mutation stages (`f` for the start binding, `g`
for the end binding) sees the array exactly as the source does at that
moment — prefix updated, current shape as currently mutated, suffix
untouched. -/
noncomputable def bindPassAux (f g : List Shape → Shape → Shape) :
    List Shape → List Shape → List Shape
  | done, [] => done
  | done, s :: rest =>
      if connOK s then
        let s1 := f (done ++ s :: rest) s
        let s2 := g (done ++ s1 :: rest) s1
        bindPassAux f g (done ++ [s2]) rest
      else bindPassAux f g (done ++ [s]) rest

/-- `Connectors.updateBindings(shapes, movedShapeId)`. -/
noncomputable def updateBindings (shapes : List Shape) (movedShapeId : String) :
    List Shape :=
  bindPassAux (updateStart movedShapeId) (updateEnd movedShapeId) [] shapes

/-- `Connectors.resolveAllBindings(shapes)`. -/
noncomputable def resolveAllBindings (shapes : List Shape) : List Shape :=
  bindPassAux resolveStart resolveEnd [] shapes

/-! ## History (`history.js`) -/

/-- The two bounded snapshot stacks.  As in the source, the top of each
stack is the **last** list element (`Array.push`/`pop`), and `deepClone` is
the identity on immutable values. -/
structure HistState where
  undoStack : List (List Shape)
  redoStack : List (List Shape)

/-- `History.MAX_STACK`. -/
def MAX_STACK : ℕ := 100

/-- `History.push`: append a snapshot, evict the oldest past the cap,
clear the redo stack. -/
def histPush (h : HistState) (shapes : List Shape) : HistState :=
  let u := h.undoStack ++ [shapes]
  ⟨if MAX_STACK < u.length then u.drop 1 else u, []⟩

/-- `History.undo`: returns the previous state (or `none`) and the new
stacks. -/
def histUndo (h : HistState) (currentShapes : List Shape) :
    Option (List Shape) × HistState :=
  match h.undoStack.getLast? with
  | none => (none, h)
  | some prev => (some prev, ⟨h.undoStack.dropLast, h.redoStack ++ [currentShapes]⟩)

/-- `History.redo`. -/
def histRedo (h : HistState) (currentShapes : List Shape) :
    Option (List Shape) × HistState :=
  match h.redoStack.getLast? with
  | none => (none, h)
  | some next => (some next, ⟨h.undoStack ++ [currentShapes], h.redoStack.dropLast⟩)

/-! ## Tool actions (`tools.js`) -/

/-- `Tools.deleteSelected`, as a function of the shape list and the selected
id set: clear the bindings of surviving shapes that reference a deleted id,
then drop the selected shapes (history push modelled separately). -/
def deleteSelected (shapes : List Shape) (selectedIds : List String) : List Shape :=
  if selectedIds = [] then shapes
  else
    (shapes.map fun s =>
        if s.id ∈ selectedIds then s
        else
          { s with
            startBinding :=
              match s.startBinding with
              | some b => if b.shapeId ∈ selectedIds then none else some b
              | none => none,
            endBinding :=
              match s.endBinding with
              | some b => if b.shapeId ∈ selectedIds then none else some b
              | none => none }).filter
      fun s => ¬ s.id ∈ selectedIds

/-- The mutable editor state that `finishDraw` touches. -/
structure EditorState where
  shapes : List Shape
  hist : HistState
  selectedIds : List String

/-- The `tooSmall` rejection test of `Tools.finishDraw`. -/
noncomputable def tooSmall (ds : Shape) : Prop :=
  if ds.type ∈ CONTAINER_TYPES then ds.width < 5 ∧ ds.height < 5
  else if (ds.type = "line" ∨ ds.type = "arrow") ∧ ds.points.isSome then
    match ds.points with
    | some (p0 :: p1 :: _) => distance p0.x p0.y p1.x p1.y < 5
    | _ => False
  else if ds.type = "freehand" ∧ ds.points.isSome then numPoints ds < 3
  else False

noncomputable instance (ds : Shape) : Decidable (tooSmall ds) := Classical.dec _

/-- The committed form of the in-progress shape in `Tools.finishDraw`:
finalize the end binding from the last live-snap result
(`drawingShape._hoverSnap`) and apply the pending system-shape label. -/
def commitShape (ds : Shape) (hover : Option Snap) (pendingLabel : Option String) :
    Shape :=
  let ds1 :=
    if (ds.type = "line" ∨ ds.type = "arrow") ∧ hover.isSome then
      match hover with
      | some sn => { ds with endBinding := some ⟨sn.shapeId, sn.angle⟩ }
      | none => ds
    else ds
  match pendingLabel with
  | some lbl => if ds1.type ∈ CONTAINER_TYPES then { ds1 with text := lbl } else ds1
  | none => ds1

/-- `Tools.finishDraw` on state `st` with in-progress shape `ds`: discard a
too-small shape, otherwise push history (of the *pre-existing* list), append
the committed shape and select it. -/
noncomputable def finishDraw (st : EditorState) (ds : Shape) (hover : Option Snap)
    (pendingLabel : Option String) : EditorState :=
  if tooSmall ds then st
  else
    ⟨st.shapes ++ [commitShape ds hover pendingLabel], histPush st.hist st.shapes,
     [(commitShape ds hover pendingLabel).id]⟩

/-- `shapes.find(s => s.id === sid)` followed by in-place `Shapes.move`:
translate the first shape with the given id. -/
def moveFirst (sid : String) (dx dy : ℝ) : List Shape → List Shape
  | [] => []
  | s :: rest => if s.id = sid then moveShape s dx dy :: rest else s :: moveFirst sid dx dy rest

/-- The base record filled in by `Shapes.create` (`id` and `seed` are the
caller-supplied randomness; every other field is the source default). -/
def createBase (id : String) (type : String) (seed : ℕ) : Shape where
  id := id
  type := type
  x := 0
  y := 0
  width := 0
  height := 0
  strokeColor := "#1e1e1e"
  fillColor := "transparent"
  strokeWidth := 2
  opacity := 1
  rotation := 0
  points := none
  text := ""
  fontSize := 16
  fontFamily := "Segoe UI, system-ui, sans-serif"
  textVAlign := "bottom"
  arrowHead := type = "arrow"
  edgeStyle := "sharp"
  strokeDash := "solid"
  shapeFillStyle := "none"
  startBinding := none
  endBinding := none
  seed := seed

/-- `Tools.onPointerDown`, `case 'line' | 'arrow'`: snap the start point to
the nearest boundary within range (no exclusions) and create the degenerate
two-point connector, recording the start binding. -/
noncomputable def startConnectorDraw (shapes : List Shape) (tool : String) (wx wy : ℝ)
    (id : String) (seed : ℕ) : Shape :=
  let base := createBase id tool seed
  match findNearestBoundaryPoint shapes wx wy [] with
  | some sn =>
      { base with
        points := some [⟨sn.x, sn.y⟩, ⟨sn.x, sn.y⟩],
        startBinding := some ⟨sn.shapeId, sn.angle⟩,
        arrowHead := tool = "arrow" }
  | none =>
      { base with
        points := some [⟨wx, wy⟩, ⟨wx, wy⟩],
        startBinding := none,
        arrowHead := tool = "arrow" }

/-- `Tools.handleDrawMove`, `case 'line' | 'arrow'`: re-query the snap at
the cursor (excluding the start-binding target) and update `points[1]`;
returns the updated shape and the live `_hoverSnap`. -/
noncomputable def connectorDrawMove (shapes : List Shape) (ds : Shape) (wx wy : ℝ) :
    Shape × Option Snap :=
  let excl := match ds.startBinding with
    | some b => [b.shapeId]
    | none => []
  match findNearestBoundaryPoint shapes wx wy excl with
  | some sn =>
      ({ ds with
         points := some (listModify (fun _ => ⟨sn.x, sn.y⟩) 1 (ds.points.getD [])) },
       some sn)
  | none =>
      ({ ds with
         points := some (listModify (fun _ => ⟨wx, wy⟩) 1 (ds.points.getD [])) },
       none)

/-! ## Generic helpers -/

/-- Evaluate `Real.sqrt` at a perfect square. -/
theorem sqrt_eval {x r : ℝ} (hr : 0 ≤ r) (h : x = r ^ 2) : Real.sqrt x = r := by
  rw [h, Real.sqrt_sq hr]

/-- The clamp of `Shapes.resize` yields a value `≥ 10`. -/
theorem clamp10_ge (w : ℝ) : 10 ≤ (if w < 10 then (10 : ℝ) else w) := by
  split
  · exact le_refl 10
  · linarith [not_lt.mp (by assumption : ¬ w < 10)]

/-- A concrete container-style shape record used in witnesses. -/
def mkBox (id type : String) (x y w h : ℝ) : Shape :=
  { createBase id type 0 with x := x, y := y, width := w, height := h }

/-- Container types are none of `line`, `arrow`, `freehand`. -/
theorem container_not_special :
    ∀ t ∈ CONTAINER_TYPES, ¬(t = "line" ∨ t = "arrow") ∧ ¬ t = "freehand" := by
  decide

/-- `getBounds` of a container-typed shape is its stored box. -/
theorem getBounds_container (s : Shape) (h : s.type ∈ CONTAINER_TYPES) :
    getBounds s = ⟨s.x, s.y, s.width, s.height⟩ := by
  have h2 := container_not_special s.type h
  unfold getBounds
  rw [if_neg h2.1, if_neg h2.2]

/-- Direction property of `_rayRectFromCenter`: the ray cast lands at a
positive multiple of the direction, on the rectangle silhouette. -/
theorem rayRect_dir (cx cy dx dy hw hh : ℝ) (hw' : 0 < hw) (hh' : 0 < hh)
    (hnz : ¬(dx = 0 ∧ dy = 0)) :
    ∃ k : ℝ, 0 < k ∧
      rayRectFromCenter cx cy (cx + dx) (cy + dy) hw hh = ⟨cx + k * dx, cy + k * dy⟩ ∧
      max (|k * dx| / hw) (|k * dy| / hh) = 1 := by
  have hdx : cx + dx - cx = dx := by ring
  have hdy : cy + dy - cy = dy := by ring
  unfold rayRectFromCenter
  simp only [hdx, hdy, if_neg hnz]
  by_cases hcond : |dx| / hw > |dy| / hh
  · have hdxpos : (0 : ℝ) < |dx| := by
      by_contra hc
      push_neg at hc
      have hz : |dx| = 0 := le_antisymm hc (abs_nonneg dx)
      rw [hz, zero_div] at hcond
      exact absurd hcond (not_lt.mpr (div_nonneg (abs_nonneg dy) hh'.le))
    have hkpos : 0 < hw / |dx| := div_pos hw' hdxpos
    refine ⟨hw / |dx|, hkpos, ?_, ?_⟩
    · rw [if_pos hcond]
      exact Point.ext (by ring) (by ring)
    · have h1 : |hw / |dx| * dx| / hw = 1 := by
        rw [abs_mul, abs_of_pos hkpos]
        field_simp
      have hcross : |dy| * hw < |dx| * hh := (div_lt_div_iff hh' hw').mp hcond
      have h2 : |hw / |dx| * dy| / hh ≤ 1 := by
        rw [abs_mul, abs_of_pos hkpos, div_le_one hh', div_mul_eq_mul_div,
          div_le_iff hdxpos]
        nlinarith
      rw [h1]
      exact max_eq_left h2
  · push_neg at hcond
    have hdypos : (0 : ℝ) < |dy| := by
      by_contra hc
      push_neg at hc
      have hz : |dy| = 0 := le_antisymm hc (abs_nonneg dy)
      have hdy0 : dy = 0 := abs_eq_zero.mp hz
      rw [hz, zero_div] at hcond
      have hx0 : |dx| ≤ 0 := by
        by_contra hx
        push_neg at hx
        exact absurd hcond (not_le.mpr (div_pos hx hw'))
      exact hnz ⟨abs_eq_zero.mp (le_antisymm hx0 (abs_nonneg dx)), hdy0⟩
    have hkpos : 0 < hh / |dy| := div_pos hh' hdypos
    refine ⟨hh / |dy|, hkpos, ?_, ?_⟩
    · rw [if_neg (not_lt.mpr hcond)]
      exact Point.ext (by ring) (by ring)
    · have h1 : |hh / |dy| * dy| / hh = 1 := by
        rw [abs_mul, abs_of_pos hkpos]
        field_simp
      have hcross : |dx| * hh ≤ |dy| * hw := (div_le_div_iff hw' hh').mp hcond
      have h2 : |hh / |dy| * dx| / hw ≤ 1 := by
        rw [abs_mul, abs_of_pos hkpos, div_le_one hw', div_mul_eq_mul_div,
          div_le_iff hdypos]
        nlinarith
      rw [h1]
      exact max_eq_right h2

/-- Direction property of `_rayDiamondFromCenter`: the ray cast lands at a
positive multiple of the direction, on the diamond silhouette. -/
theorem rayDiamond_dir (cx cy dx dy hw hh : ℝ) (hw' : 0 < hw) (hh' : 0 < hh)
    (hnz : ¬(dx = 0 ∧ dy = 0)) :
    ∃ k : ℝ, 0 < k ∧
      rayDiamondFromCenter cx cy (cx + dx) (cy + dy) hw hh = ⟨cx + k * dx, cy + k * dy⟩ ∧
      |k * dx| / hw + |k * dy| / hh = 1 := by
  have hdx : cx + dx - cx = dx := by ring
  have hdy : cy + dy - cy = dy := by ring
  unfold rayDiamondFromCenter
  simp only [hdx, hdy, if_neg hnz]
  have hDpos : 0 < |dx| / hw + |dy| / hh := by
    rcases (not_and_or.mp hnz) with h | h
    · have : 0 < |dx| := abs_pos.mpr h
      have h1 : 0 < |dx| / hw := div_pos this hw'
      have h2 : 0 ≤ |dy| / hh := div_nonneg (abs_nonneg dy) hh'.le
      linarith
    · have : 0 < |dy| := abs_pos.mpr h
      have h1 : 0 < |dy| / hh := div_pos this hh'
      have h2 : 0 ≤ |dx| / hw := div_nonneg (abs_nonneg dx) hw'.le
      linarith
  have hkpos : 0 < 1 / (|dx| / hw + |dy| / hh) := by positivity
  refine ⟨1 / (|dx| / hw + |dy| / hh), hkpos, Point.ext (by ring) (by ring), ?_⟩
  rw [abs_mul, abs_mul, abs_of_pos hkpos]
  have hsum : 1 / (|dx| / hw + |dy| / hh) * |dx| / hw +
      1 / (|dx| / hw + |dy| / hh) * |dy| / hh =
      (|dx| / hw + |dy| / hh) / (|dx| / hw + |dy| / hh) := by ring
  rw [hsum, div_self (ne_of_gt hDpos)]

/-- A unit direction has a nonzero component. -/
theorem unit_dir_ne_zero (a : Dir) (hunit : a.c ^ 2 + a.s ^ 2 = 1) :
    ¬(a.c * 10000 = 0 ∧ a.s * 10000 = 0) := by
  rintro ⟨h1, h2⟩
  have hc : a.c = 0 := by
    rcases mul_eq_zero.mp h1 with h | h
    · exact h
    · norm_num at h
  have hs : a.s = 0 := by
    rcases mul_eq_zero.mp h2 with h | h
    · exact h
    · norm_num at h
  rw [hc, hs] at hunit
  norm_num at hunit

/-- C1 (amended): for container shapes of the **rectangular and diamond**
boundary families with positive extents, the point returned by
`getBoundaryPointFromAngle` for a stored angle `θ` (represented by its unit
`(cos θ, sin θ)` pair) lies in direction exactly `θ` from the shape's
current center — the offset is a positive multiple `k` of the direction —
and on the shape's silhouette (`max (|Δx|/halfW, |Δy|/halfH) = 1` for the
rectangular family, `|Δx|/halfW + |Δy|/halfH = 1` for the diamond family).
The elliptical family is excluded: see `angle_roundtrip_ellipse_cex`. -/
theorem angle_roundtrip_rect_diamond (s : Shape) (a : Dir)
    (hcont : s.type ∈ CONTAINER_TYPES) (hnotEll : s.type ∉ ELLIPSE_BOUNDARY_TYPES)
    (hw : 0 < s.width) (hh : 0 < s.height) (hunit : a.c ^ 2 + a.s ^ 2 = 1) :
    ∃ k : ℝ, 0 < k ∧
      getBoundaryPointFromAngle s a =
        ⟨s.x + s.width / 2 + k * a.c, s.y + s.height / 2 + k * a.s⟩ ∧
      (s.type ∈ DIAMOND_BOUNDARY_TYPES →
        |k * a.c| / (s.width / 2) + |k * a.s| / (s.height / 2) = 1) ∧
      (s.type ∉ DIAMOND_BOUNDARY_TYPES →
        max (|k * a.c| / (s.width / 2)) (|k * a.s| / (s.height / 2)) = 1) := by
  have hb := getBounds_container s hcont
  have hnz := unit_dir_ne_zero a hunit
  have hw2 : 0 < s.width / 2 := by linarith
  have hh2 : 0 < s.height / 2 := by linarith
  unfold getBoundaryPointFromAngle getBoundaryPoint
  rw [hb]
  dsimp only
  rw [if_neg hnotEll]
  by_cases hdia : s.type ∈ DIAMOND_BOUNDARY_TYPES
  · rw [if_pos hdia]
    obtain ⟨k, hk, heq, hbd⟩ :=
      rayDiamond_dir (s.x + s.width / 2) (s.y + s.height / 2) (a.c * 10000)
        (a.s * 10000) (s.width / 2) (s.height / 2) hw2 hh2 hnz
    refine ⟨k * 10000, by positivity, ?_, fun _ => ?_, fun hn => absurd hdia hn⟩
    · rw [heq]
      exact Point.ext (by ring) (by ring)
    · have e1 : k * (a.c * 10000) = k * 10000 * a.c := by ring
      have e2 : k * (a.s * 10000) = k * 10000 * a.s := by ring
      rw [e1, e2] at hbd
      exact hbd
  · rw [if_neg hdia]
    obtain ⟨k, hk, heq, hbd⟩ :=
      rayRect_dir (s.x + s.width / 2) (s.y + s.height / 2) (a.c * 10000)
        (a.s * 10000) (s.width / 2) (s.height / 2) hw2 hh2 hnz
    refine ⟨k * 10000, by positivity, ?_, fun hd => absurd hd hdia, fun _ => ?_⟩
    · rw [heq]
      exact Point.ext (by ring) (by ring)
    · have e1 : k * (a.c * 10000) = k * 10000 * a.c := by ring
      have e2 : k * (a.s * 10000) = k * 10000 * a.s := by ring
      rw [e1, e2] at hbd
      exact hbd

/-- Witness for `angle_roundtrip_rect_diamond` at a concrete rectangle and
the unit direction `(3/5, 4/5)`. -/
theorem angle_roundtrip_rect_diamond_witness :
    (mkBox "r1" "rectangle" 0 0 100 50).type ∈ CONTAINER_TYPES ∧
    (mkBox "r1" "rectangle" 0 0 100 50).type ∉ ELLIPSE_BOUNDARY_TYPES ∧
    (0:ℝ) < (mkBox "r1" "rectangle" 0 0 100 50).width ∧
    (0:ℝ) < (mkBox "r1" "rectangle" 0 0 100 50).height ∧
    ((3/5 : ℝ) ^ 2 + (4/5 : ℝ) ^ 2 = 1) ∧
    (∃ k : ℝ, 0 < k ∧
      getBoundaryPointFromAngle (mkBox "r1" "rectangle" 0 0 100 50) ⟨3/5, 4/5⟩ =
        ⟨(mkBox "r1" "rectangle" 0 0 100 50).x +
            (mkBox "r1" "rectangle" 0 0 100 50).width / 2 + k * (3/5),
         (mkBox "r1" "rectangle" 0 0 100 50).y +
            (mkBox "r1" "rectangle" 0 0 100 50).height / 2 + k * (4/5)⟩ ∧
      ((mkBox "r1" "rectangle" 0 0 100 50).type ∈ DIAMOND_BOUNDARY_TYPES →
        |k * (3/5 : ℝ)| / ((mkBox "r1" "rectangle" 0 0 100 50).width / 2) +
          |k * (4/5 : ℝ)| / ((mkBox "r1" "rectangle" 0 0 100 50).height / 2) = 1) ∧
      ((mkBox "r1" "rectangle" 0 0 100 50).type ∉ DIAMOND_BOUNDARY_TYPES →
        max (|k * (3/5 : ℝ)| / ((mkBox "r1" "rectangle" 0 0 100 50).width / 2))
          (|k * (4/5 : ℝ)| / ((mkBox "r1" "rectangle" 0 0 100 50).height / 2)) = 1)) := by
  refine ⟨by decide, by decide, by norm_num [mkBox, createBase],
    by norm_num [mkBox, createBase], by norm_num, ?_⟩
  exact angle_roundtrip_rect_diamond (mkBox "r1" "rectangle" 0 0 100 50) ⟨3/5, 4/5⟩
    (by decide) (by decide) (by norm_num [mkBox, createBase])
    (by norm_num [mkBox, createBase]) (by norm_num)

/-- `dirOfVec` at the concrete 3-4-5 vector. -/
theorem dirOfVec_6000_8000 : dirOfVec 6000 8000 = ⟨3/5, 4/5⟩ := by
  unfold dirOfVec
  rw [if_neg (by norm_num)]
  have hs : Real.sqrt ((6000 : ℝ) ^ 2 + 8000 ^ 2) = 10000 :=
    sqrt_eval (by norm_num) (by norm_num)
  rw [hs]
  exact Dir.ext (by norm_num) (by norm_num)

/-- C1 counterexample: for the elliptical boundary family the claimed angle
round-trip fails.  For the `100 × 50` ellipse and the stored angle with
`(cos, sin) = (3/5, 4/5)`, the resolved boundary point is `(80, 45)`, whose
offset `(30, 20)` from the center `(50, 25)` is **not** a positive multiple
of `(3/5, 4/5)` — the returned point's angle differs from the stored angle. -/
theorem angle_roundtrip_ellipse_cex :
    ¬ ∃ k : ℝ, 0 < k ∧
      getBoundaryPointFromAngle (mkBox "e1" "ellipse" 0 0 100 50) ⟨3/5, 4/5⟩ =
        ⟨50 + k * (3/5), 25 + k * (4/5)⟩ := by
  have hb : getBounds (mkBox "e1" "ellipse" 0 0 100 50) = ⟨0, 0, 100, 50⟩ := by
    rw [getBounds_container _ (by decide)]
    rfl
  have heval : getBoundaryPointFromAngle (mkBox "e1" "ellipse" 0 0 100 50) ⟨3/5, 4/5⟩ =
      ⟨80, 45⟩ := by
    unfold getBoundaryPointFromAngle getBoundaryPoint
    rw [hb]
    dsimp only
    rw [if_pos (by decide : (mkBox "e1" "ellipse" 0 0 100 50).type ∈ ELLIPSE_BOUNDARY_TYPES)]
    unfold rayEllipseFromCenter
    have e1 : (0 : ℝ) + 100 / 2 + 3 / 5 * 10000 - (0 + 100 / 2) = 6000 := by norm_num
    have e2 : (0 : ℝ) + 50 / 2 + 4 / 5 * 10000 - (0 + 50 / 2) = 8000 := by norm_num
    dsimp only
    rw [e1, e2, dirOfVec_6000_8000]
    exact Point.ext (by norm_num) (by norm_num)
  rintro ⟨k, hk, heq⟩
  rw [heval] at heq
  have hx : (80 : ℝ) = 50 + k * (3/5) := congrArg Point.x heq
  have hy : (45 : ℝ) = 25 + k * (4/5) := congrArg Point.y heq
  have hk50 : k = 50 := by linarith
  rw [hk50] at hy
  norm_num at hy

/-- C8: after a `Shapes.resize` with any of the eight compass handles,
the shape's width and height are both at least 10 (minimum-size clamp). -/
theorem resize_min_size (s : Shape) (handle : String) (dx dy : ℝ)
    (h : handle ∈ ["nw", "n", "ne", "e", "se", "s", "sw", "w"]) :
    10 ≤ (resizeShape s handle dx dy).width ∧
    10 ≤ (resizeShape s handle dx dy).height := by
  have h1 : ¬(handle = "lineStart" ∧ s.points.isSome) := by
    rintro ⟨rfl, -⟩
    revert h
    decide
  have h2 : ¬(handle = "lineEnd" ∧ s.points.isSome) := by
    rintro ⟨rfl, -⟩
    revert h
    decide
  unfold resizeShape
  rw [if_neg h1, if_neg h2]
  exact ⟨clamp10_ge _, clamp10_ge _⟩

/-- Witness for `resize_min_size`: shrinking a `50 × 50` rectangle with the
`nw` handle far past its corner still leaves a `10 × 10` box. -/
theorem resize_min_size_witness :
    ("nw" : String) ∈ ["nw", "n", "ne", "e", "se", "s", "sw", "w"] ∧
    (10 ≤ (resizeShape (mkBox "r2" "rectangle" 0 0 50 50) "nw" 200 200).width ∧
     10 ≤ (resizeShape (mkBox "r2" "rectangle" 0 0 50 50) "nw" 200 200).height) :=
  ⟨by decide, resize_min_size (mkBox "r2" "rectangle" 0 0 50 50) "nw" 200 200 (by decide)⟩

/-- C10: `History.undo` followed by `History.redo` restores the original
current list exactly (and symmetrically); a list handed to `History.push` is
stored by value — the snapshot a later `undo` returns is the pushed list. -/
theorem history_roundtrip (h : HistState) (cur prev : List Shape) (h2 : HistState) :
    (histUndo h cur = (some prev, h2) → (histRedo h2 prev).1 = some cur) ∧
    (histRedo h cur = (some prev, h2) → (histUndo h2 prev).1 = some cur) ∧
    ∀ l, (histUndo (histPush h l) cur).1 = some l := by
  refine ⟨?_, ?_, ?_⟩
  · intro he
    unfold histUndo at he
    cases hu : h.undoStack.getLast? with
    | none => rw [hu] at he; simp at he
    | some p =>
        rw [hu] at he
        dsimp only at he
        injection he with ha hb
        unfold histRedo
        rw [← hb]
        simp [List.getLast?_concat]
  · intro he
    unfold histRedo at he
    cases hu : h.redoStack.getLast? with
    | none => rw [hu] at he; simp at he
    | some p =>
        rw [hu] at he
        dsimp only at he
        injection he with ha hb
        unfold histUndo
        rw [← hb]
        simp [List.getLast?_concat]
  · intro l
    unfold histPush histUndo
    dsimp only
    by_cases hc : MAX_STACK < (h.undoStack ++ [l]).length
    · rw [if_pos hc]
      cases hst : h.undoStack with
      | nil => rw [hst] at hc; simp [MAX_STACK] at hc
      | cons a t => simp [List.getLast?_concat]
    · rw [if_neg hc]
      simp [List.getLast?_concat]

/-- Witness for `history_roundtrip` at a concrete one-snapshot stack. -/
theorem history_roundtrip_witness :
    (histUndo ⟨[[]], []⟩ [] = (some [], ⟨[], [[]]⟩) →
      (histRedo ⟨[], [[]]⟩ []).1 = some []) ∧
    (histRedo ⟨[[]], []⟩ [] = (some [], ⟨[], [[]]⟩) →
      (histUndo ⟨[], [[]]⟩ []).1 = some []) ∧
    ∀ l, (histUndo (histPush ⟨[[]], []⟩ l) []).1 = some l :=
  history_roundtrip ⟨[[]], []⟩ [] [] ⟨[], [[]]⟩

/-! ## List surgery lemmas -/

theorem listModify_length (f : Point → Point) (i : ℕ) (ps : List Point) :
    (listModify f i ps).length = ps.length := by
  induction ps generalizing i with
  | nil => cases i <;> rfl
  | cons p rest ih =>
      cases i with
      | zero => rfl
      | succ n => simpa [listModify] using ih n

theorem listModify_get?_ne (f : Point → Point) (i j : ℕ) (ps : List Point)
    (h : j ≠ i) : (listModify f i ps).get? j = ps.get? j := by
  induction ps generalizing i j with
  | nil => cases i <;> rfl
  | cons p rest ih =>
      cases i with
      | zero =>
          cases j with
          | zero => exact absurd rfl h
          | succ m => rfl
      | succ n =>
          cases j with
          | zero => rfl
          | succ m => simpa [listModify] using ih n m (fun hc => h (by omega))

theorem listModify_get?_eq (f : Point → Point) (i : ℕ) (ps : List Point) :
    (listModify f i ps).get? i = (ps.get? i).map f := by
  induction ps generalizing i with
  | nil => cases i <;> rfl
  | cons p rest ih =>
      cases i with
      | zero => rfl
      | succ n => simpa [listModify] using ih n

theorem listModify_self (pt : Point) (i : ℕ) (ps : List Point)
    (h : ps.get? i = some pt) : listModify (fun _ => pt) i ps = ps := by
  induction ps generalizing i with
  | nil => cases i <;> rfl
  | cons p rest ih =>
      cases i with
      | zero =>
          simp only [List.get?] at h
          injection h with h2
          simp [listModify, h2]
      | succ n =>
          simp only [List.get?] at h
          simp [listModify, ih n h]

/-! ## Frame properties of the binding-loop stages -/

/-- Every field of a shape except `points`, `startBinding`, `endBinding`. -/
def styleOf (s : Shape) :=
  (s.id, s.type, s.x, s.y, s.width, s.height, s.strokeColor, s.fillColor,
   s.strokeWidth, s.opacity, s.rotation, s.text, s.fontSize, s.fontFamily,
   s.textVAlign, s.arrowHead, s.edgeStyle, s.strokeDash, s.shapeFillStyle,
   s.seed)

theorem styleOf_setPtFirst (s : Shape) (pt : Point) :
    styleOf (setPtFirst s pt) = styleOf s := by
  unfold setPtFirst
  cases s.points <;> rfl

theorem styleOf_setPtLast (s : Shape) (pt : Point) :
    styleOf (setPtLast s pt) = styleOf s := by
  unfold setPtLast
  cases s.points <;> rfl

theorem setPtFirst_points (s : Shape) (pt : Point) (ps : List Point)
    (h : s.points = some ps) :
    (setPtFirst s pt).points = some (listModify (fun _ => pt) 0 ps) := by
  unfold setPtFirst
  rw [h]

theorem setPtLast_points (s : Shape) (pt : Point) (ps : List Point)
    (h : s.points = some ps) :
    (setPtLast s pt).points = some (listModify (fun _ => pt) (ps.length - 1) ps) := by
  unfold setPtLast
  rw [h]

theorem setPtFirst_bindings (s : Shape) (pt : Point) :
    (setPtFirst s pt).startBinding = s.startBinding ∧
    (setPtFirst s pt).endBinding = s.endBinding := by
  unfold setPtFirst
  cases s.points <;> exact ⟨rfl, rfl⟩

theorem setPtLast_bindings (s : Shape) (pt : Point) :
    (setPtLast s pt).startBinding = s.startBinding ∧
    (setPtLast s pt).endBinding = s.endBinding := by
  unfold setPtLast
  cases s.points <;> exact ⟨rfl, rfl⟩

theorem styleOf_id {a b : Shape} (h : styleOf a = styleOf b) : a.id = b.id :=
  congrArg (fun p => p.1) h

theorem styleOf_type {a b : Shape} (h : styleOf a = styleOf b) : a.type = b.type :=
  congrArg (fun p => p.2.1) h

/-! ## Stability of lookups during a binding pass -/

/-- Pointwise relation between the original array and any mid-pass snapshot:
ids and types are unchanged, and non-connector entries are untouched. -/
def SimRel (a b : Shape) : Prop :=
  a.id = b.id ∧ a.type = b.type ∧ (¬ isConnType a.type → a = b)

theorem simRel_refl (a : Shape) : SimRel a a := ⟨rfl, rfl, fun _ => rfl⟩

/-- `SimStable l l2`: `l2` is a mid-pass snapshot of `l`. -/
def SimStable (l l2 : List Shape) : Prop := List.Forall₂ SimRel l l2

theorem simStable_refl (l : List Shape) : SimStable l l :=
  List.forall₂_same.mpr fun a _ => simRel_refl a

theorem simStable_append {l1 l2 m1 m2 : List Shape} (h1 : SimStable l1 m1)
    (h2 : SimStable l2 m2) : SimStable (l1 ++ l2) (m1 ++ m2) := by
  induction h1 with
  | nil => exact h2
  | cons hr _ ih => exact List.Forall₂.cons hr ih

theorem findShape_cons (a : Shape) (t : List Shape) (sid : String) :
    findShape (a :: t) sid = if a.id = sid then some a else findShape t sid := by
  unfold findShape
  by_cases ha : a.id = sid
  · simp [List.find?_cons, ha]
  · simp [List.find?_cons, ha]

theorem findShape_nil (sid : String) : findShape [] sid = none := rfl

/-- Lookups by id agree across a mid-pass snapshot: a missing id is missing
in both, and a found shape is found at the same place with the same id and
type — and is identical if it is not a connector. -/
theorem findShape_sim {l l2 : List Shape} (h : SimStable l l2) (sid : String) :
    (findShape l sid = none → findShape l2 sid = none) ∧
    (∀ t, findShape l sid = some t →
      ∃ t2, findShape l2 sid = some t2 ∧ SimRel t t2) := by
  induction h with
  | nil =>
      refine ⟨fun _ => rfl, fun t ht => ?_⟩
      rw [findShape_nil] at ht
      cases ht
  | @cons a b la lb hr hrest ih =>
      rw [findShape_cons, findShape_cons]
      obtain ⟨hid, hty, hnc⟩ := hr
      by_cases ha : a.id = sid
      · rw [if_pos ha, if_pos (hid ▸ ha)]
        refine ⟨fun hc => (nomatch hc), fun t ht => ?_⟩
        injection ht with ht1
        subst ht1
        exact ⟨b, rfl, hid, hty, hnc⟩
      · rw [if_neg ha, if_neg (fun hb => ha (hid.trans hb))]
        exact ih

/-- Bindings of a shape whose found target (in `l`) is a non-connector. -/
def TargetsOK (l : List Shape) (ob : Option Binding) : Prop :=
  ∀ b, ob = some b → ∀ t, findShape l b.shapeId = some t → ¬ isConnType t.type

/-- The first shape with a given id (if any) is a non-connector. -/
def MovedOK (l : List Shape) (mid : String) : Prop :=
  ∀ t, findShape l mid = some t → ¬ isConnType t.type

theorem resolveStart_stable {l look : List Shape} (h : SimStable l look) (s : Shape)
    (hok : TargetsOK l s.startBinding) : resolveStart look s = resolveStart l s := by
  cases hsb : s.startBinding with
  | none => simp [resolveStart, hsb]
  | some b =>
      cases hft : findShape l b.shapeId with
      | none => simp [resolveStart, hsb, hft, (findShape_sim h b.shapeId).1 hft]
      | some t =>
          obtain ⟨t2, ht2, hrel⟩ := (findShape_sim h b.shapeId).2 t hft
          have ht2t : t2 = t := (hrel.2.2 (hok b hsb t hft)).symm
          simp [resolveStart, hsb, hft, ht2, ht2t]

theorem resolveEnd_stable {l look : List Shape} (h : SimStable l look) (s : Shape)
    (hok : TargetsOK l s.endBinding) : resolveEnd look s = resolveEnd l s := by
  cases hsb : s.endBinding with
  | none => simp [resolveEnd, hsb]
  | some b =>
      cases hft : findShape l b.shapeId with
      | none => simp [resolveEnd, hsb, hft, (findShape_sim h b.shapeId).1 hft]
      | some t =>
          obtain ⟨t2, ht2, hrel⟩ := (findShape_sim h b.shapeId).2 t hft
          have ht2t : t2 = t := (hrel.2.2 (hok b hsb t hft)).symm
          simp [resolveEnd, hsb, hft, ht2, ht2t]

theorem updateStart_stable {l look : List Shape} (h : SimStable l look) (mid : String)
    (s : Shape) (hok : MovedOK l mid) :
    updateStart mid look s = updateStart mid l s := by
  cases hsb : s.startBinding with
  | none => simp [updateStart, hsb]
  | some b =>
      by_cases hbm : b.shapeId = mid
      · cases hft : findShape l mid with
        | none => simp [updateStart, hsb, hbm, hft, (findShape_sim h mid).1 hft]
        | some t =>
            obtain ⟨t2, ht2, hrel⟩ := (findShape_sim h mid).2 t hft
            have ht2t : t2 = t := (hrel.2.2 (hok t hft)).symm
            simp [updateStart, hsb, hbm, hft, ht2, ht2t]
      · simp [updateStart, hsb, hbm]

theorem updateEnd_stable {l look : List Shape} (h : SimStable l look) (mid : String)
    (s : Shape) (hok : MovedOK l mid) :
    updateEnd mid look s = updateEnd mid l s := by
  cases hsb : s.endBinding with
  | none => simp [updateEnd, hsb]
  | some b =>
      by_cases hbm : b.shapeId = mid
      · cases hft : findShape l mid with
        | none => simp [updateEnd, hsb, hbm, hft, (findShape_sim h mid).1 hft]
        | some t =>
            obtain ⟨t2, ht2, hrel⟩ := (findShape_sim h mid).2 t hft
            have ht2t : t2 = t := (hrel.2.2 (hok t hft)).symm
            simp [updateEnd, hsb, hbm, hft, ht2, ht2t]
      · simp [updateEnd, hsb, hbm]

theorem resolveStart_style (look : List Shape) (s : Shape) :
    styleOf (resolveStart look s) = styleOf s := by
  cases hsb : s.startBinding with
  | none => simp [resolveStart, hsb]
  | some b =>
      cases hft : findShape look b.shapeId with
      | none => simp [resolveStart, hsb, hft, styleOf]
      | some t => simp [resolveStart, hsb, hft, styleOf_setPtFirst]

theorem resolveEnd_style (look : List Shape) (s : Shape) :
    styleOf (resolveEnd look s) = styleOf s := by
  cases hsb : s.endBinding with
  | none => simp [resolveEnd, hsb]
  | some b =>
      cases hft : findShape look b.shapeId with
      | none => simp [resolveEnd, hsb, hft, styleOf]
      | some t => simp [resolveEnd, hsb, hft, styleOf_setPtLast]

theorem updateStart_style (mid : String) (look : List Shape) (s : Shape) :
    styleOf (updateStart mid look s) = styleOf s := by
  cases hsb : s.startBinding with
  | none => simp [updateStart, hsb]
  | some b =>
      by_cases hbm : b.shapeId = mid
      · cases hft : findShape look mid with
        | none => simp [updateStart, hsb, hbm, hft]
        | some t => simp [updateStart, hsb, hbm, hft, styleOf_setPtFirst]
      · simp [updateStart, hsb, hbm]

theorem updateEnd_style (mid : String) (look : List Shape) (s : Shape) :
    styleOf (updateEnd mid look s) = styleOf s := by
  cases hsb : s.endBinding with
  | none => simp [updateEnd, hsb]
  | some b =>
      by_cases hbm : b.shapeId = mid
      · cases hft : findShape look mid with
        | none => simp [updateEnd, hsb, hbm, hft]
        | some t => simp [updateEnd, hsb, hbm, hft, styleOf_setPtLast]
      · simp [updateEnd, hsb, hbm]

/-! ## The two central lemmas about `bindPassAux` -/

/-- Frame lemma: the pass leaves the prefix `done` in place, preserves the
length and order of `todo`, passes every non-`connOK` shape through
unchanged, and transforms every `connOK` shape by one `f`-stage followed by
one `g`-stage (for *some* lookup environments). -/
theorem bindPassAux_frame (f g : List Shape → Shape → Shape) (P : Shape → Shape → Prop)
    (hfg : ∀ look1 look2 s, connOK s → P s (g look2 (f look1 s))) :
    ∀ todo done, ∃ res, bindPassAux f g done todo = done ++ res ∧
      res.length = todo.length ∧
      ∀ j s, todo.get? j = some s →
        ∃ s2, res.get? j = some s2 ∧ (connOK s → P s s2) ∧ (¬ connOK s → s2 = s) := by
  intro todo
  induction todo with
  | nil =>
      intro done
      refine ⟨[], by simp [bindPassAux], rfl, fun j s hj => ?_⟩
      simp at hj
  | cons s rest ih =>
      intro done
      by_cases hc : connOK s
      · obtain ⟨res, hres, hlen, hspec⟩ :=
          ih (done ++ [g (done ++ f (done ++ s :: rest) s :: rest) (f (done ++ s :: rest) s)])
        refine ⟨g (done ++ f (done ++ s :: rest) s :: rest) (f (done ++ s :: rest) s) :: res,
          ?_, by simp [hlen], ?_⟩
        · show bindPassAux f g done (s :: rest) = _
          rw [bindPassAux, if_pos hc]
          rw [hres]
          simp
        · intro j t hj
          cases j with
          | zero =>
              simp only [List.get?] at hj
              injection hj with h1
              subst h1
              exact ⟨_, rfl, fun h => hfg _ _ s h, fun hn => absurd hc hn⟩
          | succ m =>
              simp only [List.get?] at hj ⊢
              exact hspec m t hj
      · obtain ⟨res, hres, hlen, hspec⟩ := ih (done ++ [s])
        refine ⟨s :: res, ?_, by simp [hlen], ?_⟩
        · show bindPassAux f g done (s :: rest) = _
          rw [bindPassAux, if_neg hc]
          rw [hres]
          simp
        · intro j t hj
          cases j with
          | zero =>
              simp only [List.get?] at hj
              injection hj with h1
              subst h1
              exact ⟨s, rfl, fun h => absurd h hc, fun _ => rfl⟩
          | succ m =>
              simp only [List.get?] at hj ⊢
              exact hspec m t hj

/-- Fold-equals-map lemma: when the two stages are insensitive to mid-pass
snapshots (all lookup targets stable), the in-place pass is the `map` of the
two stages evaluated against the *original* array `l0`. -/
theorem bindPassAux_map (f g : List Shape → Shape → Shape) (l0 : List Shape)
    (hf_style : ∀ look s, styleOf (f look s) = styleOf s)
    (hg_style : ∀ look s, styleOf (g look s) = styleOf s)
    (hf_st : ∀ look s, SimStable l0 look → s ∈ l0 → connOK s → f look s = f l0 s)
    (hg_st : ∀ look s, SimStable l0 look → s ∈ l0 → connOK s →
      g look (f l0 s) = g l0 (f l0 s)) :
    ∀ todo done l0pre, l0 = l0pre ++ todo → SimStable l0pre done →
      bindPassAux f g done todo =
        done ++ todo.map (fun s => if connOK s then g l0 (f l0 s) else s) := by
  intro todo
  induction todo with
  | nil =>
      intro done l0pre h1 h2
      simp [bindPassAux]
  | cons s rest ih =>
      intro done l0pre hsplit hsim
      have hmem : s ∈ l0 := by
        rw [hsplit]
        exact List.mem_append_right _ (List.mem_cons_self s rest)
      have hsimfull : SimStable l0 (done ++ s :: rest) := by
        rw [hsplit]
        exact simStable_append hsim (simStable_refl (s :: rest))
      by_cases hc : connOK s
      · rw [bindPassAux, if_pos hc]
        dsimp only
        rw [hf_st _ _ hsimfull hmem hc]
        have hrel1 : SimRel s (f l0 s) :=
          ⟨(styleOf_id (hf_style l0 s)).symm, (styleOf_type (hf_style l0 s)).symm,
            fun hn => absurd hc.1 hn⟩
        have hsim2 : SimStable l0 (done ++ f l0 s :: rest) := by
          have h0 : SimStable (l0pre ++ s :: rest) (done ++ f l0 s :: rest) :=
            simStable_append hsim (List.Forall₂.cons hrel1 (simStable_refl rest))
          exact hsplit.symm ▸ h0
        rw [hg_st _ _ hsim2 hmem hc]
        have hrel2 : SimRel s (g l0 (f l0 s)) :=
          ⟨(styleOf_id ((hg_style l0 (f l0 s)).trans (hf_style l0 s))).symm,
            (styleOf_type ((hg_style l0 (f l0 s)).trans (hf_style l0 s))).symm,
            fun hn => absurd hc.1 hn⟩
        have hnext : SimStable (l0pre ++ [s]) (done ++ [g l0 (f l0 s)]) :=
          simStable_append hsim (List.Forall₂.cons hrel2 List.Forall₂.nil)
        rw [ih (done ++ [g l0 (f l0 s)]) (l0pre ++ [s]) (by rw [hsplit]; simp) hnext]
        simp [hc]
      · rw [bindPassAux, if_neg hc]
        have hrel2 : SimRel s s := simRel_refl s
        have hnext : SimStable (l0pre ++ [s]) (done ++ [s]) :=
          simStable_append hsim (List.Forall₂.cons hrel2 List.Forall₂.nil)
        rw [ih (done ++ [s]) (l0pre ++ [s]) (by rw [hsplit]; simp) hnext]
        simp [hc]

/-! ## Case analyses of the four loop stages -/

theorem resolveStart_cases (look : List Shape) (s : Shape) :
    resolveStart look s = s ∨ (∃ pt, resolveStart look s = setPtFirst s pt) ∨
    resolveStart look s = { s with startBinding := none } := by
  cases hsb : s.startBinding with
  | none => left; simp [resolveStart, hsb]
  | some b =>
      cases hft : findShape look b.shapeId with
      | none => right; right; simp [resolveStart, hsb, hft]
      | some t =>
          right; left
          exact ⟨getBoundaryPointFromAngle t b.angle, by simp [resolveStart, hsb, hft]⟩

theorem resolveEnd_cases (look : List Shape) (s : Shape) :
    resolveEnd look s = s ∨ (∃ pt, resolveEnd look s = setPtLast s pt) ∨
    resolveEnd look s = { s with endBinding := none } := by
  cases hsb : s.endBinding with
  | none => left; simp [resolveEnd, hsb]
  | some b =>
      cases hft : findShape look b.shapeId with
      | none => right; right; simp [resolveEnd, hsb, hft]
      | some t =>
          right; left
          exact ⟨getBoundaryPointFromAngle t b.angle, by simp [resolveEnd, hsb, hft]⟩

theorem updateStart_cases (mid : String) (look : List Shape) (s : Shape) :
    updateStart mid look s = s ∨ (∃ pt, updateStart mid look s = setPtFirst s pt) := by
  cases hsb : s.startBinding with
  | none => left; simp [updateStart, hsb]
  | some b =>
      by_cases hbm : b.shapeId = mid
      · cases hft : findShape look mid with
        | none => left; simp [updateStart, hsb, hbm, hft]
        | some t =>
            right
            exact ⟨getBoundaryPointFromAngle t b.angle, by simp [updateStart, hsb, hbm, hft]⟩
      · left; simp [updateStart, hsb, hbm]

theorem updateEnd_cases (mid : String) (look : List Shape) (s : Shape) :
    updateEnd mid look s = s ∨ (∃ pt, updateEnd mid look s = setPtLast s pt) := by
  cases hsb : s.endBinding with
  | none => left; simp [updateEnd, hsb]
  | some b =>
      by_cases hbm : b.shapeId = mid
      · cases hft : findShape look mid with
        | none => left; simp [updateEnd, hsb, hbm, hft]
        | some t =>
            right
            exact ⟨getBoundaryPointFromAngle t b.angle, by simp [updateEnd, hsb, hbm, hft]⟩
      · left; simp [updateEnd, hsb, hbm]

/-! ## Derived per-stage facts -/

theorem setPtFirst_numPoints (s : Shape) (pt : Point) :
    numPoints (setPtFirst s pt) = numPoints s := by
  cases hp : s.points with
  | none => simp [setPtFirst, numPoints, hp]
  | some ps => simp [setPtFirst, numPoints, hp, listModify_length]

theorem setPtLast_numPoints (s : Shape) (pt : Point) :
    numPoints (setPtLast s pt) = numPoints s := by
  cases hp : s.points with
  | none => simp [setPtLast, numPoints, hp]
  | some ps => simp [setPtLast, numPoints, hp, listModify_length]

theorem resolveStart_endB (look : List Shape) (s : Shape) :
    (resolveStart look s).endBinding = s.endBinding := by
  rcases resolveStart_cases look s with h | ⟨pt, h⟩ | h <;> rw [h]
  · exact (setPtFirst_bindings s pt).2

theorem resolveEnd_startB (look : List Shape) (s : Shape) :
    (resolveEnd look s).startBinding = s.startBinding := by
  rcases resolveEnd_cases look s with h | ⟨pt, h⟩ | h <;> rw [h]
  · exact (setPtLast_bindings s pt).1

theorem updateStart_endB (mid : String) (look : List Shape) (s : Shape) :
    (updateStart mid look s).endBinding = s.endBinding := by
  rcases updateStart_cases mid look s with h | ⟨pt, h⟩ <;> rw [h]
  · exact (setPtFirst_bindings s pt).2

theorem updateEnd_startB (mid : String) (look : List Shape) (s : Shape) :
    (updateEnd mid look s).startBinding = s.startBinding := by
  rcases updateEnd_cases mid look s with h | ⟨pt, h⟩ <;> rw [h]
  · exact (setPtLast_bindings s pt).1

theorem updateStart_startB (mid : String) (look : List Shape) (s : Shape) :
    (updateStart mid look s).startBinding = s.startBinding := by
  rcases updateStart_cases mid look s with h | ⟨pt, h⟩ <;> rw [h]
  · exact (setPtFirst_bindings s pt).1

theorem updateEnd_endB (mid : String) (look : List Shape) (s : Shape) :
    (updateEnd mid look s).endBinding = s.endBinding := by
  rcases updateEnd_cases mid look s with h | ⟨pt, h⟩ <;> rw [h]
  · exact (setPtLast_bindings s pt).2

theorem resolveStart_startB (look : List Shape) (s : Shape) :
    (resolveStart look s).startBinding = s.startBinding ∨
    (resolveStart look s).startBinding = none := by
  rcases resolveStart_cases look s with h | ⟨pt, h⟩ | h <;> rw [h]
  · exact Or.inl rfl
  · exact Or.inl (setPtFirst_bindings s pt).1
  · exact Or.inr rfl

theorem resolveEnd_endB (look : List Shape) (s : Shape) :
    (resolveEnd look s).endBinding = s.endBinding ∨
    (resolveEnd look s).endBinding = none := by
  rcases resolveEnd_cases look s with h | ⟨pt, h⟩ | h <;> rw [h]
  · exact Or.inl rfl
  · exact Or.inl (setPtLast_bindings s pt).2
  · exact Or.inr rfl

theorem resolveStart_numPoints (look : List Shape) (s : Shape) :
    numPoints (resolveStart look s) = numPoints s := by
  rcases resolveStart_cases look s with h | ⟨pt, h⟩ | h <;> rw [h]
  · exact setPtFirst_numPoints s pt
  · rfl

theorem resolveEnd_numPoints (look : List Shape) (s : Shape) :
    numPoints (resolveEnd look s) = numPoints s := by
  rcases resolveEnd_cases look s with h | ⟨pt, h⟩ | h <;> rw [h]
  · exact setPtLast_numPoints s pt
  · rfl

theorem updateStart_numPoints (mid : String) (look : List Shape) (s : Shape) :
    numPoints (updateStart mid look s) = numPoints s := by
  rcases updateStart_cases mid look s with h | ⟨pt, h⟩ <;> rw [h]
  · exact setPtFirst_numPoints s pt

theorem updateEnd_numPoints (mid : String) (look : List Shape) (s : Shape) :
    numPoints (updateEnd mid look s) = numPoints s := by
  rcases updateEnd_cases mid look s with h | ⟨pt, h⟩ <;> rw [h]
  · exact setPtLast_numPoints s pt

/-- A first-binding stage (`resolveStart`/`updateStart`) preserves all point
entries except possibly index 0. -/
theorem firstStage_points (s s1 : Shape)
    (hcase : s1 = s ∨ (∃ pt, s1 = setPtFirst s pt)) (ps : List Point)
    (hps : s.points = some ps) :
    ∃ ps1, s1.points = some ps1 ∧ ps1.length = ps.length ∧
      ∀ j, j ≠ 0 → ps1.get? j = ps.get? j := by
  rcases hcase with rfl | ⟨pt, rfl⟩
  · exact ⟨ps, hps, rfl, fun _ _ => rfl⟩
  · refine ⟨listModify (fun _ => pt) 0 ps, setPtFirst_points s pt ps hps,
      listModify_length _ _ _, fun j hj => listModify_get?_ne _ _ _ _ hj⟩

/-- A last-binding stage (`resolveEnd`/`updateEnd`) preserves all point
entries except possibly index `length - 1`. -/
theorem lastStage_points (s s1 : Shape)
    (hcase : s1 = s ∨ (∃ pt, s1 = setPtLast s pt)) (ps : List Point)
    (hps : s.points = some ps) :
    ∃ ps1, s1.points = some ps1 ∧ ps1.length = ps.length ∧
      ∀ j, j ≠ ps.length - 1 → ps1.get? j = ps.get? j := by
  rcases hcase with rfl | ⟨pt, rfl⟩
  · exact ⟨ps, hps, rfl, fun _ _ => rfl⟩
  · refine ⟨listModify (fun _ => pt) (ps.length - 1) ps, setPtLast_points s pt ps hps,
      listModify_length _ _ _, fun j hj => listModify_get?_ne _ _ _ _ hj⟩

theorem resolveEnd_cases2 (look : List Shape) (s : Shape) :
    resolveEnd look s = s ∨ (∃ pt, resolveEnd look s = setPtLast s pt) ∨
    (resolveEnd look s).points = s.points := by
  rcases resolveEnd_cases look s with h | h | h
  · exact Or.inl h
  · exact Or.inr (Or.inl h)
  · right; right; rw [h]

theorem resolveStart_points (look : List Shape) (s : Shape) (ps : List Point)
    (hps : s.points = some ps) :
    ∃ ps1, (resolveStart look s).points = some ps1 ∧ ps1.length = ps.length ∧
      ∀ j, j ≠ 0 → ps1.get? j = ps.get? j := by
  rcases resolveStart_cases look s with h | ⟨pt, h⟩ | h <;> rw [h]
  · exact ⟨ps, hps, rfl, fun _ _ => rfl⟩
  · exact ⟨listModify (fun _ => pt) 0 ps, setPtFirst_points s pt ps hps,
      listModify_length _ _ _, fun j hj => listModify_get?_ne _ _ _ _ hj⟩
  · exact ⟨ps, hps, rfl, fun _ _ => rfl⟩

theorem resolveEnd_points (look : List Shape) (s : Shape) (ps : List Point)
    (hps : s.points = some ps) :
    ∃ ps1, (resolveEnd look s).points = some ps1 ∧ ps1.length = ps.length ∧
      ∀ j, j ≠ ps.length - 1 → ps1.get? j = ps.get? j := by
  rcases resolveEnd_cases look s with h | ⟨pt, h⟩ | h <;> rw [h]
  · exact ⟨ps, hps, rfl, fun _ _ => rfl⟩
  · exact ⟨listModify (fun _ => pt) (ps.length - 1) ps, setPtLast_points s pt ps hps,
      listModify_length _ _ _, fun j hj => listModify_get?_ne _ _ _ _ hj⟩
  · exact ⟨ps, hps, rfl, fun _ _ => rfl⟩

theorem updateStart_points (mid : String) (look : List Shape) (s : Shape) (ps : List Point)
    (hps : s.points = some ps) :
    ∃ ps1, (updateStart mid look s).points = some ps1 ∧ ps1.length = ps.length ∧
      ∀ j, j ≠ 0 → ps1.get? j = ps.get? j := by
  rcases updateStart_cases mid look s with h | ⟨pt, h⟩ <;> rw [h]
  · exact ⟨ps, hps, rfl, fun _ _ => rfl⟩
  · exact ⟨listModify (fun _ => pt) 0 ps, setPtFirst_points s pt ps hps,
      listModify_length _ _ _, fun j hj => listModify_get?_ne _ _ _ _ hj⟩

theorem updateEnd_points (mid : String) (look : List Shape) (s : Shape) (ps : List Point)
    (hps : s.points = some ps) :
    ∃ ps1, (updateEnd mid look s).points = some ps1 ∧ ps1.length = ps.length ∧
      ∀ j, j ≠ ps.length - 1 → ps1.get? j = ps.get? j := by
  rcases updateEnd_cases mid look s with h | ⟨pt, h⟩ <;> rw [h]
  · exact ⟨ps, hps, rfl, fun _ _ => rfl⟩
  · exact ⟨listModify (fun _ => pt) (ps.length - 1) ps, setPtLast_points s pt ps hps,
      listModify_length _ _ _, fun j hj => listModify_get?_ne _ _ _ _ hj⟩

theorem connOK_points {s : Shape} (hc : connOK s) : ∃ ps, s.points = some ps := by
  cases hp : s.points with
  | none =>
      exfalso
      have h2 := hc.2
      simp [numPoints, hp] at h2
  | some ps => exact ⟨ps, rfl⟩

/-! ## The frame relations of claim C9 -/

/-- What one `updateBindings` loop iteration may do to a connector: keep
every field except `points` (`styleOf`), keep the points-array length and all
interior entries, and keep both bindings. -/
def FrameUpdate (s s2 : Shape) : Prop :=
  styleOf s2 = styleOf s ∧
  (∀ ps, s.points = some ps → ∃ ps2, s2.points = some ps2 ∧ ps2.length = ps.length ∧
    ∀ j, 0 < j → j + 1 < ps.length → ps2.get? j = ps.get? j) ∧
  s2.startBinding = s.startBinding ∧ s2.endBinding = s.endBinding

/-- What one `resolveAllBindings` loop iteration may do to a connector: as
`FrameUpdate`, except that each binding may also be cleared to `null`. -/
def FrameResolve (s s2 : Shape) : Prop :=
  styleOf s2 = styleOf s ∧
  (∀ ps, s.points = some ps → ∃ ps2, s2.points = some ps2 ∧ ps2.length = ps.length ∧
    ∀ j, 0 < j → j + 1 < ps.length → ps2.get? j = ps.get? j) ∧
  (s2.startBinding = s.startBinding ∨ s2.startBinding = none) ∧
  (s2.endBinding = s.endBinding ∨ s2.endBinding = none)

theorem frameUpdate_stages (mid : String) (look1 look2 : List Shape) (s : Shape)
    (hc : connOK s) :
    FrameUpdate s (updateEnd mid look2 (updateStart mid look1 s)) := by
  refine ⟨(updateEnd_style _ _ _).trans (updateStart_style _ _ _), ?_, ?_, ?_⟩
  · intro ps hps
    obtain ⟨ps1, hps1, hlen1, hget1⟩ := updateStart_points mid look1 s ps hps
    obtain ⟨ps2, hps2, hlen2, hget2⟩ :=
      updateEnd_points mid look2 (updateStart mid look1 s) ps1 hps1
    refine ⟨ps2, hps2, by omega, fun j hj0 hjlast => ?_⟩
    rw [hget2 j (by omega), hget1 j (by omega)]
  · rw [updateEnd_startB, updateStart_startB]
  · rw [updateEnd_endB, updateStart_endB]

theorem frameResolve_stages (look1 look2 : List Shape) (s : Shape) (hc : connOK s) :
    FrameResolve s (resolveEnd look2 (resolveStart look1 s)) := by
  refine ⟨(resolveEnd_style _ _).trans (resolveStart_style _ _), ?_, ?_, ?_⟩
  · intro ps hps
    obtain ⟨ps1, hps1, hlen1, hget1⟩ := resolveStart_points look1 s ps hps
    obtain ⟨ps2, hps2, hlen2, hget2⟩ :=
      resolveEnd_points look2 (resolveStart look1 s) ps1 hps1
    refine ⟨ps2, hps2, by omega, fun j hj0 hjlast => ?_⟩
    rw [hget2 j (by omega), hget1 j (by omega)]
  · rw [resolveEnd_startB]
    exact resolveStart_startB look1 s
  · rcases resolveEnd_endB look2 (resolveStart look1 s) with h | h
    · rw [h, resolveStart_endB]
      exact Or.inl rfl
    · exact Or.inr h

theorem not_connOK_iff (s : Shape) :
    ¬ connOK s ↔ (¬ isConnType s.type ∨ numPoints s < 2) := by
  unfold connOK
  rw [not_and_or, not_le]

/-- C9: `updateBindings` and `resolveAllBindings` preserve the list length
and order; they leave every shape that is not a `line`/`arrow` with at least
2 points entirely unchanged; and on the connectors they do touch they
preserve every field except the `points` entries at the two ends (and, for
`resolveAllBindings` only, bindings may be cleared to `null`): all interior
points, the array length, id, type and style fields are kept. -/
theorem bindings_frame (l : List Shape) (mid : String) :
    ((updateBindings l mid).length = l.length ∧
      ∀ j s, l.get? j = some s → ∃ s2, (updateBindings l mid).get? j = some s2 ∧
        (¬ isConnType s.type ∨ numPoints s < 2 → s2 = s) ∧
        (isConnType s.type → 2 ≤ numPoints s → FrameUpdate s s2)) ∧
    ((resolveAllBindings l).length = l.length ∧
      ∀ j s, l.get? j = some s → ∃ s2, (resolveAllBindings l).get? j = some s2 ∧
        (¬ isConnType s.type ∨ numPoints s < 2 → s2 = s) ∧
        (isConnType s.type → 2 ≤ numPoints s → FrameResolve s s2)) := by
  constructor
  · obtain ⟨res, hres, hlen, hspec⟩ :=
      bindPassAux_frame (updateStart mid) (updateEnd mid) FrameUpdate
        (fun look1 look2 s hc => frameUpdate_stages mid look1 look2 s hc) l []
    have heq : updateBindings l mid = res := by
      rw [updateBindings, hres]
      simp
    rw [heq, hlen]
    refine ⟨rfl, fun j s hj => ?_⟩
    obtain ⟨s2, h1, h2, h3⟩ := hspec j s hj
    exact ⟨s2, h1, fun hor => h3 ((not_connOK_iff s).mpr hor),
      fun hi hn => h2 ⟨hi, hn⟩⟩
  · obtain ⟨res, hres, hlen, hspec⟩ :=
      bindPassAux_frame resolveStart resolveEnd FrameResolve
        (fun look1 look2 s hc => frameResolve_stages look1 look2 s hc) l []
    have heq : resolveAllBindings l = res := by
      rw [resolveAllBindings, hres]
      simp
    rw [heq, hlen]
    refine ⟨rfl, fun j s hj => ?_⟩
    obtain ⟨s2, h1, h2, h3⟩ := hspec j s hj
    exact ⟨s2, h1, fun hor => h3 ((not_connOK_iff s).mpr hor),
      fun hi hn => h2 ⟨hi, hn⟩⟩

/-- Witness for `bindings_frame` on a concrete two-shape list. -/
theorem bindings_frame_witness :
    (((updateBindings [mkBox "w1" "rectangle" 0 0 40 40] "w1").length =
        [mkBox "w1" "rectangle" 0 0 40 40].length ∧
      ∀ j s, [mkBox "w1" "rectangle" 0 0 40 40].get? j = some s →
        ∃ s2, (updateBindings [mkBox "w1" "rectangle" 0 0 40 40] "w1").get? j = some s2 ∧
          (¬ isConnType s.type ∨ numPoints s < 2 → s2 = s) ∧
          (isConnType s.type → 2 ≤ numPoints s → FrameUpdate s s2)) ∧
     ((resolveAllBindings [mkBox "w1" "rectangle" 0 0 40 40]).length =
        [mkBox "w1" "rectangle" 0 0 40 40].length ∧
      ∀ j s, [mkBox "w1" "rectangle" 0 0 40 40].get? j = some s →
        ∃ s2, (resolveAllBindings [mkBox "w1" "rectangle" 0 0 40 40]).get? j = some s2 ∧
          (¬ isConnType s.type ∨ numPoints s < 2 → s2 = s) ∧
          (isConnType s.type → 2 ≤ numPoints s → FrameResolve s s2))) :=
  bindings_frame [mkBox "w1" "rectangle" 0 0 40 40] "w1"

/-! ## Fold-equals-map specializations -/

/-- One `resolveAllBindings` iteration as a pure function of the original
array (valid when lookups are stable). -/
noncomputable def resolveShapeM (l : List Shape) (s : Shape) : Shape :=
  if connOK s then resolveEnd l (resolveStart l s) else s

/-- One `updateBindings` iteration as a pure function of the original
array. -/
noncomputable def updateShapeM (l : List Shape) (mid : String) (s : Shape) : Shape :=
  if connOK s then updateEnd mid l (updateStart mid l s) else s

/-- The data-model invariant of §3: every binding whose target id resolves
in the list points at a non-connector shape. -/
def ResolveINV (l : List Shape) : Prop :=
  ∀ s ∈ l, TargetsOK l s.startBinding ∧ TargetsOK l s.endBinding

theorem resolveAll_eq_map (l : List Shape) (hinv : ResolveINV l) :
    resolveAllBindings l = l.map (resolveShapeM l) := by
  have h := bindPassAux_map resolveStart resolveEnd l resolveStart_style resolveEnd_style
    (fun look s hsim hmem _ => resolveStart_stable hsim s (hinv s hmem).1)
    (fun look s hsim hmem _ => by
      refine resolveEnd_stable hsim _ ?_
      rw [resolveStart_endB]
      exact (hinv s hmem).2)
    l [] [] rfl List.Forall₂.nil
  rw [resolveAllBindings, h]
  simp [resolveShapeM]

theorem update_eq_map (l : List Shape) (mid : String) (hmv : MovedOK l mid) :
    updateBindings l mid = l.map (updateShapeM l mid) := by
  have h := bindPassAux_map (updateStart mid) (updateEnd mid) l
    (updateStart_style mid) (updateEnd_style mid)
    (fun look s hsim _ _ => updateStart_stable hsim mid s hmv)
    (fun look s hsim _ _ => updateEnd_stable hsim mid _ hmv)
    l [] [] rfl List.Forall₂.nil
  rw [updateBindings, h]
  simp [updateShapeM]

theorem simStable_map (l : List Shape) (h : Shape → Shape)
    (hrel : ∀ s ∈ l, SimRel s (h s)) : SimStable l (l.map h) := by
  induction l with
  | nil => exact List.Forall₂.nil
  | cons a t ih =>
      exact List.Forall₂.cons (hrel a (List.mem_cons_self a t))
        (ih fun s hs => hrel s (List.mem_cons_of_mem a hs))

theorem map_self_of_fix {l : List Shape} {h : Shape → Shape}
    (hfix : ∀ s ∈ l, h s = s) : l.map h = l := by
  induction l with
  | nil => rfl
  | cons a t ih =>
      rw [List.map_cons, hfix a (List.mem_cons_self a t),
        ih fun s hs => hfix s (List.mem_cons_of_mem a hs)]

theorem resolveShapeM_style (l : List Shape) (s : Shape) :
    styleOf (resolveShapeM l s) = styleOf s := by
  unfold resolveShapeM
  split
  · exact (resolveEnd_style _ _).trans (resolveStart_style _ _)
  · rfl

theorem resolveShapeM_simRel (l : List Shape) (s : Shape) :
    SimRel s (resolveShapeM l s) := by
  by_cases hc : connOK s
  · exact ⟨(styleOf_id (resolveShapeM_style l s)).symm,
      (styleOf_type (resolveShapeM_style l s)).symm, fun hn => absurd hc.1 hn⟩
  · rw [resolveShapeM, if_neg hc]
    exact simRel_refl s

theorem connOK_resolveShapeM (l : List Shape) (s : Shape) (hc : connOK s) :
    connOK (resolveShapeM l s) := by
  rw [resolveShapeM, if_pos hc]
  constructor
  · have ht : (resolveEnd l (resolveStart l s)).type = s.type :=
      styleOf_type ((resolveEnd_style _ _).trans (resolveStart_style _ _))
    rw [ht]
    exact hc.1
  · rw [resolveEnd_numPoints, resolveStart_numPoints]
    exact hc.2

/-- `setPtFirst` is the identity when the first point already has the
required value. -/
theorem setPtFirst_self (s : Shape) (pt : Point) (ps : List Point)
    (hps : s.points = some ps) (h0 : ps.get? 0 = some pt) :
    setPtFirst s pt = s := by
  have h1 : setPtFirst s pt = { s with points := some (listModify (fun _ => pt) 0 ps) } := by
    unfold setPtFirst
    rw [hps]
  rw [h1, listModify_self pt 0 ps h0, ← hps]

/-- `setPtLast` is the identity when the last point already has the
required value. -/
theorem setPtLast_self (s : Shape) (pt : Point) (ps : List Point)
    (hps : s.points = some ps) (h0 : ps.get? (ps.length - 1) = some pt) :
    setPtLast s pt = s := by
  have h1 : setPtLast s pt =
      { s with points := some (listModify (fun _ => pt) (ps.length - 1) ps) } := by
    unfold setPtLast
    rw [hps]
  rw [h1, listModify_self pt (ps.length - 1) ps h0, ← hps]

/-- Transfer a successful non-connector lookup to a mid-pass snapshot. -/
theorem findShape_sim_nonconn {l l2 : List Shape} (h : SimStable l l2) (sid : String)
    (t : Shape) (ht : findShape l sid = some t) (hnc : ¬ isConnType t.type) :
    findShape l2 sid = some t := by
  obtain ⟨t2, ht2, hrel⟩ := (findShape_sim h sid).2 t ht
  rw [ht2, hrel.2.2 hnc]

theorem resolveShapeM_startB (l : List Shape) (s : Shape) :
    (resolveShapeM l s).startBinding = s.startBinding ∨
    (resolveShapeM l s).startBinding = none := by
  unfold resolveShapeM
  split
  · rw [resolveEnd_startB]
    exact resolveStart_startB l s
  · exact Or.inl rfl

theorem resolveShapeM_endB (l : List Shape) (s : Shape) :
    (resolveShapeM l s).endBinding = s.endBinding ∨
    (resolveShapeM l s).endBinding = none := by
  unfold resolveShapeM
  split
  · rcases resolveEnd_endB l (resolveStart l s) with h | h
    · rw [h, resolveStart_endB]
      exact Or.inl rfl
    · exact Or.inr h
  · exact Or.inl rfl

/-- Under the data-model invariant, a second `resolveAllBindings` iteration
is the identity on the output of the first. -/
theorem resolveShapeM_fix (l l1 : List Shape) (hinv : ResolveINV l)
    (hsim : SimStable l l1) (s : Shape) (hs : s ∈ l) :
    resolveShapeM l1 (resolveShapeM l s) = resolveShapeM l s := by
  by_cases hc : connOK s
  case neg =>
    have h0 : resolveShapeM l s = s := by rw [resolveShapeM, if_neg hc]
    rw [h0, resolveShapeM, if_neg hc]
  case pos =>
  obtain ⟨ps, hps⟩ := connOK_points hc
  have hlen2 : 2 ≤ ps.length := by
    have h2 := hc.2
    unfold numPoints at h2
    rwa [hps] at h2
  have hMeq : resolveShapeM l s = resolveEnd l (resolveStart l s) := by
    rw [resolveShapeM, if_pos hc]
  have hc2 : connOK (resolveShapeM l s) := connOK_resolveShapeM l s hc
  rw [resolveShapeM, if_pos hc2]
  have hs1eb : (resolveStart l s).endBinding = s.endBinding := resolveStart_endB l s
  -- Stage A: re-resolving the start binding is the identity
  have hA : resolveStart l1 (resolveShapeM l s) = resolveShapeM l s := by
    cases hsb : s.startBinding with
    | none =>
        have h1 : resolveStart l s = s := by simp [resolveStart, hsb]
        have hs2sb : (resolveShapeM l s).startBinding = none := by
          rw [hMeq, resolveEnd_startB, h1, hsb]
        simp [resolveStart, hs2sb]
    | some b =>
        cases hft : findShape l b.shapeId with
        | none =>
            have h1 : resolveStart l s = { s with startBinding := none } := by
              simp [resolveStart, hsb, hft]
            have hs2sb : (resolveShapeM l s).startBinding = none := by
              rw [hMeq, resolveEnd_startB, h1]
            simp [resolveStart, hs2sb]
        | some t =>
            have hnc : ¬ isConnType t.type := (hinv s hs).1 b hsb t hft
            have hft1 : findShape l1 b.shapeId = some t :=
              findShape_sim_nonconn hsim _ t hft hnc
            have h1 : resolveStart l s =
                setPtFirst s (getBoundaryPointFromAngle t b.angle) := by
              simp [resolveStart, hsb, hft]
            have hs2sb : (resolveShapeM l s).startBinding = some b := by
              rw [hMeq, resolveEnd_startB, h1, (setPtFirst_bindings s _).1, hsb]
            have hps1 : (resolveStart l s).points =
                some (listModify (fun _ => getBoundaryPointFromAngle t b.angle) 0 ps) := by
              rw [h1]
              exact setPtFirst_points s _ ps hps
            obtain ⟨ps2, hps2, hlen2', hget2⟩ := resolveEnd_points l (resolveStart l s) _ hps1
            have hget20 : ps2.get? 0 = some (getBoundaryPointFromAngle t b.angle) := by
              rw [hget2 0 (by rw [listModify_length]; omega), listModify_get?_eq]
              cases ps with
              | nil => simp at hlen2
              | cons p rest => rfl
            have hself := setPtFirst_self (resolveShapeM l s)
              (getBoundaryPointFromAngle t b.angle) ps2 (by rw [hMeq]; exact hps2) hget20
            simp [resolveStart, hs2sb, hft1, hself]
  rw [hA]
  -- Stage B: re-resolving the end binding is the identity
  obtain ⟨ps1, hps1, hlen1, -⟩ := resolveStart_points l s ps hps
  cases hse : s.endBinding with
  | none =>
      have h2 : resolveShapeM l s = resolveStart l s := by
        rw [hMeq]
        simp [resolveEnd, hs1eb, hse]
      have hs2eb : (resolveShapeM l s).endBinding = none := by
        rw [h2, hs1eb, hse]
      simp [resolveEnd, hs2eb]
  | some b =>
      cases hft : findShape l b.shapeId with
      | none =>
          have h2 : resolveShapeM l s = { resolveStart l s with endBinding := none } := by
            rw [hMeq]
            simp [resolveEnd, hs1eb, hse, hft]
          have hs2eb : (resolveShapeM l s).endBinding = none := by rw [h2]
          simp [resolveEnd, hs2eb]
      | some t =>
          have hnc : ¬ isConnType t.type := (hinv s hs).2 b hse t hft
          have hft1 : findShape l1 b.shapeId = some t :=
            findShape_sim_nonconn hsim _ t hft hnc
          have h2 : resolveShapeM l s =
              setPtLast (resolveStart l s) (getBoundaryPointFromAngle t b.angle) := by
            rw [hMeq]
            simp [resolveEnd, hs1eb, hse, hft]
          have hs2eb : (resolveShapeM l s).endBinding = some b := by
            rw [h2, (setPtLast_bindings _ _).2, hs1eb, hse]
          have hps2 : (resolveShapeM l s).points =
              some (listModify (fun _ => getBoundaryPointFromAngle t b.angle)
                (ps1.length - 1) ps1) := by
            rw [h2]
            exact setPtLast_points _ _ ps1 hps1
          have hgetlast :
              (listModify (fun _ => getBoundaryPointFromAngle t b.angle)
                (ps1.length - 1) ps1).get? (ps1.length - 1) =
              some (getBoundaryPointFromAngle t b.angle) := by
            rw [listModify_get?_eq]
            cases hg : ps1.get? (ps1.length - 1) with
            | none =>
                rw [List.get?_eq_none] at hg
                omega
            | some p => rfl
          have hself := setPtLast_self (resolveShapeM l s)
            (getBoundaryPointFromAngle t b.angle) _ hps2 (by
              rw [listModify_length]
              exact hgetlast)
          simp [resolveEnd, hs2eb, hft1, hself]

/-- C5 (amended): on every shape list satisfying the data-model invariant —
all binding targets that resolve in the list are non-connector shapes —
`resolveAllBindings` is idempotent.  (Without the invariant it is not: see
`resolveAll_idempotent_cex`.) -/
theorem resolveAll_idempotent (l : List Shape) (hinv : ResolveINV l) :
    resolveAllBindings (resolveAllBindings l) = resolveAllBindings l := by
  have hmap := resolveAll_eq_map l hinv
  have hsim : SimStable l (l.map (resolveShapeM l)) :=
    simStable_map l _ fun s _ => resolveShapeM_simRel l s
  have hinv1 : ResolveINV (l.map (resolveShapeM l)) := by
    intro s1 hs1
    obtain ⟨s, hs, rfl⟩ := List.mem_map.mp hs1
    constructor
    · intro b hb t1 ht1
      have hsb : s.startBinding = some b := by
        rcases resolveShapeM_startB l s with h | h
        · rw [← h]; exact hb
        · rw [h] at hb; cases hb
      cases hft : findShape l b.shapeId with
      | none =>
          rw [(findShape_sim hsim b.shapeId).1 hft] at ht1
          cases ht1
      | some t =>
          have hnc := (hinv s hs).1 b hsb t hft
          rw [findShape_sim_nonconn hsim _ t hft hnc] at ht1
          injection ht1 with h
          rw [← h]
          exact hnc
    · intro b hb t1 ht1
      have hsb : s.endBinding = some b := by
        rcases resolveShapeM_endB l s with h | h
        · rw [← h]; exact hb
        · rw [h] at hb; cases hb
      cases hft : findShape l b.shapeId with
      | none =>
          rw [(findShape_sim hsim b.shapeId).1 hft] at ht1
          cases ht1
      | some t =>
          have hnc := (hinv s hs).2 b hsb t hft
          rw [findShape_sim_nonconn hsim _ t hft hnc] at ht1
          injection ht1 with h
          rw [← h]
          exact hnc
  rw [hmap, resolveAll_eq_map _ hinv1]
  apply map_self_of_fix
  intro x hx
  obtain ⟨s, hs, rfl⟩ := List.mem_map.mp hx
  exact resolveShapeM_fix l _ hinv hsim s hs

/-- A concrete connector record used in witnesses and counterexamples. -/
def mkLine (id : String) (ps : List Point) (sb eb : Option Binding) : Shape :=
  { createBase id "line" 0 with points := some ps, startBinding := sb, endBinding := eb }

def c5rect : Shape := mkBox "r0" "rectangle" 0 0 100 100

def c5line : Shape := mkLine "c0" [⟨0, 0⟩, ⟨1, 1⟩] (some ⟨"r0", ⟨1, 0⟩⟩) none

theorem c5INV : ResolveINV [c5rect, c5line] := by
  intro s hs
  fin_cases hs
  · constructor
    · intro b hb
      rw [show c5rect.startBinding = none from rfl] at hb
      cases hb
    · intro b hb
      rw [show c5rect.endBinding = none from rfl] at hb
      cases hb
  · constructor
    · intro b hb t ht
      rw [show c5line.startBinding = some ⟨"r0", ⟨1, 0⟩⟩ from rfl] at hb
      injection hb with hb1
      subst hb1
      rw [findShape_cons, if_pos (show c5rect.id = "r0" from rfl)] at ht
      injection ht with ht1
      subst ht1
      decide
    · intro b hb
      rw [show c5line.endBinding = none from rfl] at hb
      cases hb

/-- Witness for `resolveAll_idempotent`: a rectangle and a line bound to it. -/
theorem resolveAll_idempotent_witness :
    ResolveINV [c5rect, c5line] ∧
    resolveAllBindings (resolveAllBindings [c5rect, c5line]) =
      resolveAllBindings [c5rect, c5line] :=
  ⟨c5INV, resolveAll_idempotent _ c5INV⟩

/-- A line whose start binding targets **itself** (constructible by loading
a crafted document; the UI itself never creates connector-targeting
bindings). -/
noncomputable def cexL : Shape := mkLine "a" [⟨0, 0⟩, ⟨6, 3⟩, ⟨10, 10⟩] (some ⟨"a", ⟨3/5, 4/5⟩⟩) none

theorem cexL_bounds : getBounds cexL = ⟨0, 0, 10, 10⟩ := by
  show ptsBds ⟨0, 0⟩ [⟨6, 3⟩, ⟨10, 10⟩] = _
  unfold ptsBds
  dsimp only [List.foldl]
  refine Bounds.ext ?_ ?_ ?_ ?_ <;> norm_num [min_def, max_def]

theorem cexL_gbpfa : getBoundaryPointFromAngle cexL ⟨3/5, 4/5⟩ = ⟨35/4, 10⟩ := by
  unfold getBoundaryPointFromAngle getBoundaryPoint
  rw [cexL_bounds]
  dsimp only
  rw [if_neg (by decide : ¬ cexL.type ∈ ELLIPSE_BOUNDARY_TYPES),
    if_neg (by decide : ¬ cexL.type ∈ DIAMOND_BOUNDARY_TYPES)]
  unfold rayRectFromCenter
  dsimp only
  rw [if_neg (by norm_num)]
  have e1 : |(0:ℝ) + 10 / 2 + 3 / 5 * 10000 - (0 + 10 / 2)| = 6000 := by
    rw [show (0:ℝ) + 10 / 2 + 3 / 5 * 10000 - (0 + 10 / 2) = 6000 by norm_num]
    rw [abs_of_pos]
    norm_num
  have e2 : |(0:ℝ) + 10 / 2 + 4 / 5 * 10000 - (0 + 10 / 2)| = 8000 := by
    rw [show (0:ℝ) + 10 / 2 + 4 / 5 * 10000 - (0 + 10 / 2) = 8000 by norm_num]
    rw [abs_of_pos]
    norm_num
  rw [e1, e2]
  rw [if_neg (by norm_num : ¬ (6000:ℝ) / (10 / 2) > 8000 / (10 / 2))]
  exact Point.ext (by norm_num) (by norm_num)

noncomputable def cexL1 : Shape := mkLine "a" [⟨35/4, 10⟩, ⟨6, 3⟩, ⟨10, 10⟩] (some ⟨"a", ⟨3/5, 4/5⟩⟩) none

theorem cexL_step1 : resolveAllBindings [cexL] = [cexL1] := by
  rw [resolveAllBindings, bindPassAux, if_pos (by decide : connOK cexL)]
  dsimp only
  have h1 : resolveStart ([] ++ cexL :: []) cexL = cexL1 := by
    rw [show ([] ++ cexL :: []) = [cexL] from rfl]
    have hf : findShape [cexL] "a" = some cexL := by
      rw [findShape_cons, if_pos (show cexL.id = "a" from rfl)]
    simp only [resolveStart, show cexL.startBinding = some ⟨"a", ⟨3/5, 4/5⟩⟩ from rfl, hf,
      cexL_gbpfa]
    rfl
  rw [h1]
  have h2 : resolveEnd ([] ++ cexL1 :: []) cexL1 = cexL1 := by
    simp only [resolveEnd, show cexL1.endBinding = none from rfl]
  rw [h2, bindPassAux]
  rfl

theorem cexL1_bounds : getBounds cexL1 = ⟨6, 3, 4, 7⟩ := by
  show ptsBds ⟨35/4, 10⟩ [⟨6, 3⟩, ⟨10, 10⟩] = _
  unfold ptsBds
  dsimp only [List.foldl]
  refine Bounds.ext ?_ ?_ ?_ ?_ <;> norm_num [min_def, max_def]

theorem cexL1_gbpfa : getBoundaryPointFromAngle cexL1 ⟨3/5, 4/5⟩ = ⟨10, 55/6⟩ := by
  unfold getBoundaryPointFromAngle getBoundaryPoint
  rw [cexL1_bounds]
  dsimp only
  rw [if_neg (by decide : ¬ cexL1.type ∈ ELLIPSE_BOUNDARY_TYPES),
    if_neg (by decide : ¬ cexL1.type ∈ DIAMOND_BOUNDARY_TYPES)]
  unfold rayRectFromCenter
  dsimp only
  rw [if_neg (by norm_num)]
  have e1 : |(6:ℝ) + 4 / 2 + 3 / 5 * 10000 - (6 + 4 / 2)| = 6000 := by
    rw [show (6:ℝ) + 4 / 2 + 3 / 5 * 10000 - (6 + 4 / 2) = 6000 by norm_num]
    rw [abs_of_pos]
    norm_num
  have e2 : |(3:ℝ) + 7 / 2 + 4 / 5 * 10000 - (3 + 7 / 2)| = 8000 := by
    rw [show (3:ℝ) + 7 / 2 + 4 / 5 * 10000 - (3 + 7 / 2) = 8000 by norm_num]
    rw [abs_of_pos]
    norm_num
  rw [e1, e2]
  rw [if_pos (by norm_num : (6000:ℝ) / (4 / 2) > 8000 / (7 / 2))]
  exact Point.ext (by norm_num) (by norm_num)

noncomputable def cexL2 : Shape := mkLine "a" [⟨10, 55/6⟩, ⟨6, 3⟩, ⟨10, 10⟩] (some ⟨"a", ⟨3/5, 4/5⟩⟩) none

theorem cexL_step2 : resolveAllBindings [cexL1] = [cexL2] := by
  rw [resolveAllBindings, bindPassAux, if_pos (by decide : connOK cexL1)]
  dsimp only
  have h1 : resolveStart ([] ++ cexL1 :: []) cexL1 = cexL2 := by
    rw [show ([] ++ cexL1 :: []) = [cexL1] from rfl]
    have hf : findShape [cexL1] "a" = some cexL1 := by
      rw [findShape_cons, if_pos (show cexL1.id = "a" from rfl)]
    simp only [resolveStart, show cexL1.startBinding = some ⟨"a", ⟨3/5, 4/5⟩⟩ from rfl, hf,
      cexL1_gbpfa]
    rfl
  rw [h1]
  have h2 : resolveEnd ([] ++ cexL2 :: []) cexL2 = cexL2 := by
    simp only [resolveEnd, show cexL2.endBinding = none from rfl]
  rw [h2, bindPassAux]
  rfl

/-- C5 counterexample: for the self-bound line `cexL` (bindings targeting a
connector violate the data-model invariant but fit the raw shape-list type),
the second `resolveAllBindings` moves the start point again — the claim "for
every shape list, resolving twice equals resolving once" is false. -/
theorem resolveAll_idempotent_cex :
    resolveAllBindings (resolveAllBindings [cexL]) ≠ resolveAllBindings [cexL] := by
  rw [cexL_step1, cexL_step2]
  intro h
  have h1 : cexL2 = cexL1 := List.head_eq_of_cons_eq h
  have h2 : cexL2.points = cexL1.points := congrArg Shape.points h1
  rw [show cexL2.points = some [⟨10, 55/6⟩, ⟨6, 3⟩, ⟨10, 10⟩] from rfl,
    show cexL1.points = some [⟨35/4, 10⟩, ⟨6, 3⟩, ⟨10, 10⟩] from rfl] at h2
  injection h2 with h3
  have h4 : (10:ℝ) = 35/4 := congrArg Point.x (List.head_eq_of_cons_eq h3)
  norm_num at h4

/-! ## Claim C4: translation invariance of bindings -/

theorem container_not_conn : ∀ t ∈ CONTAINER_TYPES, ¬ isConnType t := by
  decide

theorem moveShape_id (s : Shape) (dx dy : ℝ) : (moveShape s dx dy).id = s.id := by
  unfold moveShape
  cases s.points <;> rfl

theorem moveShape_type (s : Shape) (dx dy : ℝ) : (moveShape s dx dy).type = s.type := by
  unfold moveShape
  cases s.points <;> rfl

theorem rayRect_translate (cx cy u v hw hh dx dy : ℝ) :
    rayRectFromCenter (cx + dx) (cy + dy) (cx + dx + u) (cy + dy + v) hw hh =
      ⟨(rayRectFromCenter cx cy (cx + u) (cy + v) hw hh).x + dx,
       (rayRectFromCenter cx cy (cx + u) (cy + v) hw hh).y + dy⟩ := by
  unfold rayRectFromCenter
  simp only [show cx + dx + u - (cx + dx) = u from by ring,
    show cy + dy + v - (cy + dy) = v from by ring,
    show cx + u - cx = u from by ring, show cy + v - cy = v from by ring]
  split_ifs <;> exact Point.ext (by ring) (by ring)

theorem rayEllipse_translate (cx cy u v rx ry dx dy : ℝ) :
    rayEllipseFromCenter (cx + dx) (cy + dy) (cx + dx + u) (cy + dy + v) rx ry =
      ⟨(rayEllipseFromCenter cx cy (cx + u) (cy + v) rx ry).x + dx,
       (rayEllipseFromCenter cx cy (cx + u) (cy + v) rx ry).y + dy⟩ := by
  unfold rayEllipseFromCenter
  simp only [show cx + dx + u - (cx + dx) = u from by ring,
    show cy + dy + v - (cy + dy) = v from by ring,
    show cx + u - cx = u from by ring, show cy + v - cy = v from by ring]
  exact Point.ext (by ring) (by ring)

theorem rayDiamond_translate (cx cy u v hw hh dx dy : ℝ) :
    rayDiamondFromCenter (cx + dx) (cy + dy) (cx + dx + u) (cy + dy + v) hw hh =
      ⟨(rayDiamondFromCenter cx cy (cx + u) (cy + v) hw hh).x + dx,
       (rayDiamondFromCenter cx cy (cx + u) (cy + v) hw hh).y + dy⟩ := by
  unfold rayDiamondFromCenter
  simp only [show cx + dx + u - (cx + dx) = u from by ring,
    show cy + dy + v - (cy + dy) = v from by ring,
    show cx + u - cx = u from by ring, show cy + v - cy = v from by ring]
  split_ifs <;> exact Point.ext (by ring) (by ring)

theorem getBounds_moveShape_container (s : Shape) (hcont : s.type ∈ CONTAINER_TYPES)
    (hpts : s.points = none) (dx dy : ℝ) :
    getBounds (moveShape s dx dy) = ⟨s.x + dx, s.y + dy, s.width, s.height⟩ := by
  have hmv : moveShape s dx dy = { s with x := s.x + dx, y := s.y + dy } := by
    unfold moveShape
    rw [hpts]
  rw [hmv]
  exact getBounds_container _ hcont

/-- Translation equivariance of the angle re-resolution: moving a container
shape moves the re-resolved boundary point by exactly the same delta, for
every boundary family. -/
theorem gbpfa_move_container (s : Shape) (hcont : s.type ∈ CONTAINER_TYPES)
    (hpts : s.points = none) (a : Dir) (dx dy : ℝ) :
    getBoundaryPointFromAngle (moveShape s dx dy) a =
      ⟨(getBoundaryPointFromAngle s a).x + dx,
       (getBoundaryPointFromAngle s a).y + dy⟩ := by
  have hb := getBounds_container s hcont
  have hb2 := getBounds_moveShape_container s hcont hpts dx dy
  have hty : (moveShape s dx dy).type = s.type := moveShape_type s dx dy
  unfold getBoundaryPointFromAngle getBoundaryPoint
  rw [hb, hb2, hty]
  dsimp only
  rw [show s.x + dx + s.width / 2 = s.x + s.width / 2 + dx from by ring,
    show s.y + dy + s.height / 2 = s.y + s.height / 2 + dy from by ring]
  by_cases h1 : s.type ∈ ELLIPSE_BOUNDARY_TYPES
  · rw [if_pos h1, if_pos h1]
    exact rayEllipse_translate _ _ _ _ _ _ dx dy
  · rw [if_neg h1, if_neg h1]
    by_cases h2 : s.type ∈ DIAMOND_BOUNDARY_TYPES
    · rw [if_pos h2, if_pos h2]
      exact rayDiamond_translate _ _ _ _ _ _ dx dy
    · rw [if_neg h2, if_neg h2]
      exact rayRect_translate _ _ _ _ _ _ dx dy

theorem findShape_append_first (pre : List Shape) (S : Shape) (post : List Shape)
    (sid : String) (hpre : ∀ t ∈ pre, t.id ≠ sid) (hS : S.id = sid) :
    findShape (pre ++ S :: post) sid = some S := by
  induction pre with
  | nil =>
      rw [List.nil_append, findShape_cons, if_pos hS]
  | cons a t ih =>
      rw [List.cons_append, findShape_cons,
        if_neg (hpre a (List.mem_cons_self a t))]
      exact ih fun u hu => hpre u (List.mem_cons_of_mem a hu)

/-- C4: a connector endpoint bound to a container shape `S` at angle `θ` and
resting at the boundary point resolved for `θ` moves by exactly `(dx, dy)`
when `S` is translated by `(dx, dy)` (via `Shapes.move`) and
`updateBindings` is run for `S`'s id — for every boundary family, and for
both the start and the end endpoint. -/
theorem translation_invariance (pre post : List Shape) (S : Shape) (sid : String)
    (dx dy : ℝ) (hS : S.id = sid) (hpre : ∀ t ∈ pre, t.id ≠ sid)
    (hcont : S.type ∈ CONTAINER_TYPES) (hpts : S.points = none)
    (j : ℕ) (c : Shape) (ps : List Point)
    (hc : (pre ++ moveShape S dx dy :: post).get? j = some c)
    (hconn : connOK c) (hcps : c.points = some ps) :
    (∀ a, c.startBinding = some ⟨sid, a⟩ →
      ps.get? 0 = some (getBoundaryPointFromAngle S a) →
      ∃ c2 ps2, (updateBindings (pre ++ moveShape S dx dy :: post) sid).get? j = some c2 ∧
        c2.points = some ps2 ∧
        ps2.get? 0 = some ⟨(getBoundaryPointFromAngle S a).x + dx,
                           (getBoundaryPointFromAngle S a).y + dy⟩) ∧
    (∀ a, c.endBinding = some ⟨sid, a⟩ →
      ps.get? (ps.length - 1) = some (getBoundaryPointFromAngle S a) →
      ∃ c2 ps2, (updateBindings (pre ++ moveShape S dx dy :: post) sid).get? j = some c2 ∧
        c2.points = some ps2 ∧
        ps2.get? (ps2.length - 1) = some ⟨(getBoundaryPointFromAngle S a).x + dx,
                                          (getBoundaryPointFromAngle S a).y + dy⟩) := by
  have hfind : findShape (pre ++ moveShape S dx dy :: post) sid = some (moveShape S dx dy) :=
    findShape_append_first pre _ post sid hpre (by rw [moveShape_id]; exact hS)
  have hmv : MovedOK (pre ++ moveShape S dx dy :: post) sid := by
    intro t ht
    rw [hfind] at ht
    injection ht with ht1
    subst ht1
    rw [moveShape_type]
    exact container_not_conn S.type hcont
  have hmap := update_eq_map (pre ++ moveShape S dx dy :: post) sid hmv
  have hlen2 : 2 ≤ ps.length := by
    have h2 := hconn.2
    unfold numPoints at h2
    rwa [hcps] at h2
  have hgetj : (updateBindings (pre ++ moveShape S dx dy :: post) sid).get? j =
      some (updateShapeM (pre ++ moveShape S dx dy :: post) sid c) := by
    rw [hmap, List.get?_map, hc]
    rfl
  have hM : updateShapeM (pre ++ moveShape S dx dy :: post) sid c =
      updateEnd sid (pre ++ moveShape S dx dy :: post)
        (updateStart sid (pre ++ moveShape S dx dy :: post) c) := by
    rw [updateShapeM, if_pos hconn]
  have hδ := gbpfa_move_container S hcont hpts
  constructor
  · intro a hsb hrest
    have hstart : updateStart sid (pre ++ moveShape S dx dy :: post) c =
        setPtFirst c ⟨(getBoundaryPointFromAngle S a).x + dx,
                      (getBoundaryPointFromAngle S a).y + dy⟩ := by
      simp only [updateStart, hsb, if_pos rfl, if_true, hfind, hδ a dx dy]
    have hps1 : (updateStart sid (pre ++ moveShape S dx dy :: post) c).points =
        some (listModify (fun _ => ⟨(getBoundaryPointFromAngle S a).x + dx,
          (getBoundaryPointFromAngle S a).y + dy⟩) 0 ps) := by
      rw [hstart]
      exact setPtFirst_points c _ ps hcps
    obtain ⟨ps2, hps2, hlen2', hget2⟩ :=
      updateEnd_points sid (pre ++ moveShape S dx dy :: post) _ _ hps1
    refine ⟨_, ps2, by rw [hgetj, hM], hps2, ?_⟩
    rw [hget2 0 (by rw [listModify_length]; omega), listModify_get?_eq, hrest]
    rfl
  · intro a hse hrest
    obtain ⟨ps1, hps1, hlen1, hget1⟩ :=
      updateStart_points sid (pre ++ moveShape S dx dy :: post) c ps hcps
    have hs1eb : (updateStart sid (pre ++ moveShape S dx dy :: post) c).endBinding =
        some ⟨sid, a⟩ := by
      rw [updateStart_endB]
      exact hse
    have hend : updateEnd sid (pre ++ moveShape S dx dy :: post)
        (updateStart sid (pre ++ moveShape S dx dy :: post) c) =
        setPtLast (updateStart sid (pre ++ moveShape S dx dy :: post) c)
          ⟨(getBoundaryPointFromAngle S a).x + dx,
           (getBoundaryPointFromAngle S a).y + dy⟩ := by
      simp only [updateEnd, hs1eb, if_pos rfl, if_true, hfind, hδ a dx dy]
    have hps2 : (updateShapeM (pre ++ moveShape S dx dy :: post) sid c).points =
        some (listModify (fun _ => ⟨(getBoundaryPointFromAngle S a).x + dx,
          (getBoundaryPointFromAngle S a).y + dy⟩) (ps1.length - 1) ps1) := by
      rw [hM, hend]
      exact setPtLast_points _ _ ps1 hps1
    refine ⟨_, _, by rw [hgetj], hps2, ?_⟩
    rw [listModify_length]
    rw [listModify_get?_eq]
    have : ps1.get? (ps1.length - 1) = ps.get? (ps.length - 1) := by
      rw [hlen1]
      exact hget1 _ (by omega)
    rw [this, hrest]
    rfl

def c4S : Shape := mkBox "R" "rectangle" 0 0 100 100

def c4line : Shape := mkLine "L" [⟨100, 50⟩, ⟨300, 50⟩] (some ⟨"R", ⟨1, 0⟩⟩) none

/-- Witness for `translation_invariance`: a rectangle moved down by 200 with
an arrowless line bound to its right edge. -/
theorem translation_invariance_witness :
    c4S.id = "R" ∧ (∀ t ∈ ([] : List Shape), t.id ≠ "R") ∧
    c4S.type ∈ CONTAINER_TYPES ∧ c4S.points = none ∧
    (([] ++ moveShape c4S 0 200 :: [c4line]).get? 1 = some c4line) ∧
    connOK c4line ∧ c4line.points = some [⟨100, 50⟩, ⟨300, 50⟩] ∧
    ((∀ a, c4line.startBinding = some ⟨"R", a⟩ →
        ([(⟨100, 50⟩ : Point), ⟨300, 50⟩].get? 0 =
          some (getBoundaryPointFromAngle c4S a)) →
        ∃ c2 ps2,
          (updateBindings ([] ++ moveShape c4S 0 200 :: [c4line]) "R").get? 1 = some c2 ∧
          c2.points = some ps2 ∧
          ps2.get? 0 = some ⟨(getBoundaryPointFromAngle c4S a).x + 0,
                             (getBoundaryPointFromAngle c4S a).y + 200⟩) ∧
     (∀ a, c4line.endBinding = some ⟨"R", a⟩ →
        ([(⟨100, 50⟩ : Point), ⟨300, 50⟩].get?
          (([(⟨100, 50⟩ : Point), ⟨300, 50⟩] : List Point).length - 1) =
          some (getBoundaryPointFromAngle c4S a)) →
        ∃ c2 ps2,
          (updateBindings ([] ++ moveShape c4S 0 200 :: [c4line]) "R").get? 1 = some c2 ∧
          c2.points = some ps2 ∧
          ps2.get? (ps2.length - 1) = some ⟨(getBoundaryPointFromAngle c4S a).x + 0,
                                            (getBoundaryPointFromAngle c4S a).y + 200⟩)) := by
  refine ⟨rfl, fun t ht => absurd ht (List.not_mem_nil t), by decide, rfl, rfl, by decide,
    rfl, ?_⟩
  exact translation_invariance [] [c4line] c4S "R" 0 200 rfl
    (fun t ht => absurd ht (List.not_mem_nil t)) (by decide) rfl 1 c4line
    [⟨100, 50⟩, ⟨300, 50⟩] rfl (by decide) rfl

/-! ## Claim C3: characterization of `findNearestBoundaryPoint` -/

/-- Distance from the query point to a shape's boundary point toward it. -/
noncomputable def candDist (wx wy : ℝ) (s : Shape) : ℝ :=
  distance wx wy (getBoundaryPoint s wx wy).x (getBoundaryPoint s wx wy).y

/-- The candidate filter the **code** applies (skips line, arrow, freehand,
text and excluded ids). -/
def codeCand (excl : List String) (s : Shape) : Prop :=
  ¬ (s.id ∈ excl ∨ s.type ∈ SKIP_TYPES)

/-- The candidate filter the **claim** describes: "neither connectors
(line/arrow) nor text and whose id is not in excludeIds" — freehand is not
excluded by this wording. -/
def claimCand (excl : List String) (s : Shape) : Prop :=
  ¬ (s.id ∈ excl ∨ s.type ∈ ["line", "arrow", "text"])

instance (excl : List String) (s : Shape) : Decidable (claimCand excl s) := by
  unfold claimCand
  infer_instance

/-- The claimed contract of `findNearestBoundaryPoint`, parametric in the
candidate filter: absent iff no candidate's boundary point is strictly
within the snap radius; otherwise the returned record is built from the
earliest minimum-distance candidate. -/
def FNBPSpec (cand : Shape → Prop) (shapes : List Shape) (wx wy : ℝ)
    (result : Option Snap) : Prop :=
  match result with
  | none => ∀ s ∈ shapes, cand s → SNAP_DISTANCE ≤ candDist wx wy s
  | some r => ∃ preL s postL, shapes = preL ++ s :: postL ∧ cand s ∧
      candDist wx wy s < SNAP_DISTANCE ∧
      r = mkSnap s (getBoundaryPoint s wx wy) ∧
      (∀ t ∈ preL, cand t → candDist wx wy s < candDist wx wy t) ∧
      (∀ t ∈ postL, cand t → candDist wx wy s ≤ candDist wx wy t)

theorem fnbpAux_spec (wx wy : ℝ) (excl : List String) :
    ∀ (l : List Shape) (best : Option Snap) (bd : ℝ),
      (fnbpAux wx wy excl l (best, bd) = (best, bd) ∧
        ∀ s ∈ l, codeCand excl s → bd ≤ candDist wx wy s) ∨
      (∃ preL s postL, l = preL ++ s :: postL ∧ codeCand excl s ∧
        candDist wx wy s < bd ∧
        fnbpAux wx wy excl l (best, bd) =
          (some (mkSnap s (getBoundaryPoint s wx wy)), candDist wx wy s) ∧
        (∀ t ∈ preL, codeCand excl t → candDist wx wy s < candDist wx wy t) ∧
        (∀ t ∈ postL, codeCand excl t → candDist wx wy s ≤ candDist wx wy t)) := by
  intro l
  induction l with
  | nil =>
      intro best bd
      exact Or.inl ⟨rfl, fun s hs => absurd hs (List.not_mem_nil s)⟩
  | cons s rest ih =>
      intro best bd
      by_cases hskip : s.id ∈ excl ∨ s.type ∈ SKIP_TYPES
      · have hstep : fnbpAux wx wy excl (s :: rest) (best, bd) =
            fnbpAux wx wy excl rest (best, bd) := by
          rw [fnbpAux, if_pos hskip]
        rcases ih best bd with ⟨heq, hall⟩ | ⟨preL, s', postL, hsplit, hcand, hlt, heq, hpre, hpost⟩
        · left
          refine ⟨hstep.trans heq, fun t ht hc => ?_⟩
          rcases List.mem_cons.mp ht with rfl | ht2
          · exact absurd hskip hc
          · exact hall t ht2 hc
        · right
          refine ⟨s :: preL, s', postL, by rw [hsplit, List.cons_append], hcand, hlt,
            hstep.trans heq, fun t ht hc => ?_, hpost⟩
          rcases List.mem_cons.mp ht with rfl | ht2
          · exact absurd hskip hc
          · exact hpre t ht2 hc
      · have hstep : fnbpAux wx wy excl (s :: rest) (best, bd) =
            if candDist wx wy s < bd then
              fnbpAux wx wy excl rest (some (mkSnap s (getBoundaryPoint s wx wy)),
                candDist wx wy s)
            else fnbpAux wx wy excl rest (best, bd) := by
          rw [fnbpAux, if_neg hskip]
          rfl
        by_cases hd : candDist wx wy s < bd
        · rw [if_pos hd] at hstep
          rcases ih (some (mkSnap s (getBoundaryPoint s wx wy))) (candDist wx wy s) with
            ⟨heq, hall⟩ | ⟨preL, s', postL, hsplit, hcand, hlt, heq, hpre, hpost⟩
          · right
            exact ⟨[], s, rest, rfl, hskip, hd, hstep.trans heq,
              fun t ht _ => absurd ht (List.not_mem_nil t), hall⟩
          · right
            refine ⟨s :: preL, s', postL, by rw [hsplit, List.cons_append], hcand,
              lt_trans hlt hd, hstep.trans heq, fun t ht hc => ?_, hpost⟩
            rcases List.mem_cons.mp ht with rfl | ht2
            · exact hlt
            · exact hpre t ht2 hc
        · rw [if_neg hd] at hstep
          push_neg at hd
          rcases ih best bd with ⟨heq, hall⟩ | ⟨preL, s', postL, hsplit, hcand, hlt, heq, hpre, hpost⟩
          · left
            refine ⟨hstep.trans heq, fun t ht hc => ?_⟩
            rcases List.mem_cons.mp ht with rfl | ht2
            · exact hd
            · exact hall t ht2 hc
          · right
            refine ⟨s :: preL, s', postL, by rw [hsplit, List.cons_append], hcand, hlt,
              hstep.trans heq, fun t ht hc => ?_, hpost⟩
            rcases List.mem_cons.mp ht with rfl | ht2
            · exact lt_of_lt_of_le hlt hd
            · exact hpre t ht2 hc

/-- C3 (amended): `findNearestBoundaryPoint` considers as candidates exactly
the shapes that are none of line, arrow, **freehand**, or text, and whose id
is not excluded; among candidates it returns the earliest one of minimum
boundary-point distance iff that distance is strictly below the 20-unit snap
radius, with the snap record fields built from that candidate; otherwise it
returns `none` (and then every candidate is at distance ≥ 20).  The claim as
frozen omits freehand from the skip list: see `findNearest_claim_cex`. -/
theorem findNearest_characterization (shapes : List Shape) (wx wy : ℝ)
    (excl : List String) :
    FNBPSpec (codeCand excl) shapes wx wy (findNearestBoundaryPoint shapes wx wy excl) := by
  rcases fnbpAux_spec wx wy excl shapes none SNAP_DISTANCE with
    ⟨heq, hall⟩ | ⟨preL, s', postL, hsplit, hcand, hlt, heq, hpre, hpost⟩
  · have hres : findNearestBoundaryPoint shapes wx wy excl = none := by
      rw [findNearestBoundaryPoint, heq]
    rw [hres]
    exact hall
  · have hres : findNearestBoundaryPoint shapes wx wy excl =
        some (mkSnap s' (getBoundaryPoint s' wx wy)) := by
      rw [findNearestBoundaryPoint, heq]
    rw [hres]
    exact ⟨preL, s', postL, hsplit, hcand, hlt, rfl, hpre, hpost⟩

/-- Witness for `findNearest_characterization` at a concrete rectangle and
query point. -/
theorem findNearest_characterization_witness :
    FNBPSpec (codeCand []) [c5rect] 95 50
      (findNearestBoundaryPoint [c5rect] 95 50 []) :=
  findNearest_characterization [c5rect] 95 50 []

/-- A freehand stroke close to the query point. -/
def cexFH : Shape :=
  { createBase "f1" "freehand" 0 with points := some [⟨0, 0⟩, ⟨10, 0⟩, ⟨10, 10⟩] }

theorem cexFH_bounds : getBounds cexFH = ⟨0, 0, 10, 10⟩ := by
  show ptsBds ⟨0, 0⟩ [⟨10, 0⟩, ⟨10, 10⟩] = _
  unfold ptsBds
  dsimp only [List.foldl]
  refine Bounds.ext ?_ ?_ ?_ ?_ <;> norm_num [min_def, max_def]

theorem cexFH_bp : getBoundaryPoint cexFH 5 15 = ⟨5, 10⟩ := by
  unfold getBoundaryPoint
  rw [cexFH_bounds]
  dsimp only
  rw [if_neg (by decide : ¬ cexFH.type ∈ ELLIPSE_BOUNDARY_TYPES),
    if_neg (by decide : ¬ cexFH.type ∈ DIAMOND_BOUNDARY_TYPES)]
  unfold rayRectFromCenter
  dsimp only
  rw [if_neg (by norm_num)]
  have e1 : |(5:ℝ) - (0 + 10 / 2)| = 0 := by norm_num
  have e2 : |(15:ℝ) - (0 + 10 / 2)| = 10 := by
    rw [show (15:ℝ) - (0 + 10 / 2) = 10 by norm_num]
    rw [abs_of_pos]
    norm_num
  rw [e1, e2]
  rw [if_neg (by norm_num : ¬ (0:ℝ) / (10 / 2) > 10 / (10 / 2))]
  exact Point.ext (by norm_num) (by norm_num)

theorem cexFH_dist : candDist 5 15 cexFH = 5 := by
  unfold candDist
  rw [cexFH_bp]
  unfold distance
  dsimp only
  rw [show ((5:ℝ) - 5) ^ 2 + ((10:ℝ) - 15) ^ 2 = 5 ^ 2 by norm_num]
  exact Real.sqrt_sq (by norm_num)

/-- C3 counterexample: with the claim's own candidate set (which does not
skip freehand strokes), the contract fails on a list holding one freehand
stroke whose boundary point is 5 units from the query: the code returns
`none`, but the claimed characterization then requires every candidate to be
at distance ≥ 20. -/
theorem findNearest_claim_cex :
    ¬ FNBPSpec (claimCand []) [cexFH] 5 15 (findNearestBoundaryPoint [cexFH] 5 15 []) := by
  have hres : findNearestBoundaryPoint [cexFH] 5 15 [] = none := by
    rw [findNearestBoundaryPoint, fnbpAux, if_pos (by decide), fnbpAux]
  rw [hres]
  intro h
  have hd := h cexFH (List.mem_cons_self _ _) (by decide)
  rw [cexFH_dist] at hd
  unfold SNAP_DISTANCE at hd
  linarith

/-! ## Claim C6: deletion repair and dangling-binding clearing -/

/-- The binding-clearing step `deleteSelected` applies to each surviving
shape. -/
def clearSel (sel : List String) (s : Shape) : Shape :=
  { s with
    startBinding :=
      match s.startBinding with
      | some b => if b.shapeId ∈ sel then none else some b
      | none => none,
    endBinding :=
      match s.endBinding with
      | some b => if b.shapeId ∈ sel then none else some b
      | none => none }

/-- Every present binding's target id resolves in `l`. -/
def BindingLive (l : List Shape) (ob : Option Binding) : Prop :=
  ∀ b, ob = some b → ∃ t, findShape l b.shapeId = some t

theorem mem_ids_of_findShape {l : List Shape} {sid : String} {t : Shape}
    (h : findShape l sid = some t) : sid ∈ l.map Shape.id := by
  induction l with
  | nil => rw [findShape_nil] at h; cases h
  | cons a rest ih =>
      rw [findShape_cons] at h
      by_cases ha : a.id = sid
      · rw [List.map_cons]
        exact ha ▸ List.mem_cons_self _ _
      · rw [if_neg ha] at h
        exact List.mem_cons_of_mem _ (ih h)

theorem findShape_of_mem_ids {l : List Shape} {sid : String}
    (h : sid ∈ l.map Shape.id) : ∃ t, findShape l sid = some t := by
  induction l with
  | nil => simp at h
  | cons a rest ih =>
      rw [findShape_cons]
      by_cases ha : a.id = sid
      · exact ⟨a, if_pos ha⟩
      · rw [if_neg ha]
        rw [List.map_cons, List.mem_cons] at h
        rcases h with h | h
        · exact absurd h.symm ha
        · exact ih h

theorem resolveStart_live (look : List Shape) (s : Shape) (b : Binding)
    (hb : (resolveStart look s).startBinding = some b) :
    s.startBinding = some b ∧ ∃ t, findShape look b.shapeId = some t := by
  cases hsb : s.startBinding with
  | none =>
      rw [show resolveStart look s = s from by simp [resolveStart, hsb], hsb] at hb
      cases hb
  | some b0 =>
      cases hft : findShape look b0.shapeId with
      | none =>
          rw [show resolveStart look s = { s with startBinding := none } from by
            simp [resolveStart, hsb, hft]] at hb
          cases hb
      | some t =>
          rw [show resolveStart look s = setPtFirst s (getBoundaryPointFromAngle t b0.angle)
              from by simp [resolveStart, hsb, hft], (setPtFirst_bindings s _).1, hsb] at hb
          injection hb with hb1
          subst hb1
          exact ⟨rfl, t, hft⟩

theorem resolveEnd_live (look : List Shape) (s : Shape) (b : Binding)
    (hb : (resolveEnd look s).endBinding = some b) :
    s.endBinding = some b ∧ ∃ t, findShape look b.shapeId = some t := by
  cases hsb : s.endBinding with
  | none =>
      rw [show resolveEnd look s = s from by simp [resolveEnd, hsb], hsb] at hb
      cases hb
  | some b0 =>
      cases hft : findShape look b0.shapeId with
      | none =>
          rw [show resolveEnd look s = { s with endBinding := none } from by
            simp [resolveEnd, hsb, hft]] at hb
          cases hb
      | some t =>
          rw [show resolveEnd look s = setPtLast s (getBoundaryPointFromAngle t b0.angle)
              from by simp [resolveEnd, hsb, hft], (setPtLast_bindings s _).2, hsb] at hb
          injection hb with hb1
          subst hb1
          exact ⟨rfl, t, hft⟩

/-- Target ids of present bindings lie in a fixed id list. -/
def IdLive (ids : List String) (ob : Option Binding) : Prop :=
  ∀ b, ob = some b → b.shapeId ∈ ids

theorem resolve_pass_idlive (I : List String) :
    ∀ (todo done : List Shape), (done ++ todo).map Shape.id = I →
      (∀ s ∈ done, connOK s → IdLive I s.startBinding ∧ IdLive I s.endBinding) →
      ∀ s2 ∈ bindPassAux resolveStart resolveEnd done todo, connOK s2 →
        IdLive I s2.startBinding ∧ IdLive I s2.endBinding := by
  intro todo
  induction todo with
  | nil =>
      intro done hI hdone s2 hs2 hc2
      rw [bindPassAux] at hs2
      exact hdone s2 hs2 hc2
  | cons s rest ih =>
      intro done hI hdone
      by_cases hc : connOK s
      · have hstep : bindPassAux resolveStart resolveEnd done (s :: rest) =
            bindPassAux resolveStart resolveEnd
              (done ++ [resolveEnd (done ++ resolveStart (done ++ s :: rest) s :: rest)
                (resolveStart (done ++ s :: rest) s)]) rest := by
          rw [bindPassAux, if_pos hc]
        rw [hstep]
        have hid1 : (resolveStart (done ++ s :: rest) s).id = s.id :=
          styleOf_id (resolveStart_style _ _)
        have hid2 : (resolveEnd (done ++ resolveStart (done ++ s :: rest) s :: rest)
            (resolveStart (done ++ s :: rest) s)).id = s.id :=
          (styleOf_id (resolveEnd_style _ _)).trans hid1
        apply ih
        · rw [← hI]
          simp [hid2]
        · intro u hu hcu
          rcases List.mem_append.mp hu with hu | hu
          · exact hdone u hu hcu
          · rw [List.mem_singleton] at hu
            subst hu
            constructor
            · intro b hb
              rw [resolveEnd_startB] at hb
              obtain ⟨-, t, hft⟩ := resolveStart_live _ _ b hb
              have := mem_ids_of_findShape hft
              rwa [hI] at this
            · intro b hb
              obtain ⟨-, t, hft⟩ := resolveEnd_live _ _ b hb
              have := mem_ids_of_findShape hft
              rw [show (done ++ resolveStart (done ++ s :: rest) s :: rest).map Shape.id =
                  (done ++ s :: rest).map Shape.id from by simp [hid1]] at this
              rwa [hI] at this
      · have hstep : bindPassAux resolveStart resolveEnd done (s :: rest) =
            bindPassAux resolveStart resolveEnd (done ++ [s]) rest := by
          rw [bindPassAux, if_neg hc]
        rw [hstep]
        apply ih
        · rw [← hI]
          simp
        · intro u hu hcu
          rcases List.mem_append.mp hu with hu | hu
          · exact hdone u hu hcu
          · rw [List.mem_singleton] at hu
            subst hu
            exact absurd hcu hc

/-- The pass preserves the id sequence. -/
theorem resolveAll_ids (l : List Shape) :
    (resolveAllBindings l).map Shape.id = l.map Shape.id := by
  obtain ⟨res, hres, hlen, hspec⟩ :=
    bindPassAux_frame resolveStart resolveEnd (fun s s2 => s2.id = s.id)
      (fun look1 look2 s _ =>
        (styleOf_id (resolveEnd_style _ _)).trans (styleOf_id (resolveStart_style _ _)))
      l []
  have heq : resolveAllBindings l = res := by
    rw [resolveAllBindings, hres]
    simp
  rw [heq]
  apply List.ext_get?
  intro n
  rw [List.get?_map, List.get?_map]
  cases hn : l.get? n with
  | none =>
      rw [List.get?_eq_none] at hn
      have : res.get? n = none := by
        rw [List.get?_eq_none]
        omega
      rw [this]
  | some s =>
      obtain ⟨s2, h1, h2, h3⟩ := hspec n s hn
      rw [h1]
      simp only [Option.map_some']
      by_cases hc : connOK s
      · rw [h2 hc]
      · rw [h3 hc]

theorem clearSel_nil (s : Shape) : clearSel [] s = s := by
  have h1 : (match s.startBinding with
      | some b => if b.shapeId ∈ ([] : List String) then none else some b
      | none => none) = s.startBinding := by
    cases s.startBinding <;> simp
  have h2 : (match s.endBinding with
      | some b => if b.shapeId ∈ ([] : List String) then none else some b
      | none => none) = s.endBinding := by
    cases s.endBinding <;> simp
  rw [clearSel, h1, h2]

theorem clearSel_id (sel : List String) (s : Shape) : (clearSel sel s).id = s.id := rfl

theorem delete_core (sel : List String) (l : List Shape) :
    ((l.map fun s => if s.id ∈ sel then s else clearSel sel s).filter
        fun s => ¬ s.id ∈ sel) =
      (l.filter fun s => ¬ s.id ∈ sel).map (clearSel sel) := by
  induction l with
  | nil => rfl
  | cons a t ih =>
      rw [List.map_cons]
      by_cases ha : a.id ∈ sel
      · rw [if_pos ha]
        rw [List.filter_cons_of_neg (by simpa using ha),
          List.filter_cons_of_neg (by simpa using ha)]
        exact ih
      · rw [if_neg ha]
        rw [List.filter_cons_of_pos (by simpa [clearSel_id] using ha),
          List.filter_cons_of_pos (by simpa using ha), List.map_cons]
        rw [ih]

theorem delete_filter_map (l : List Shape) (sel : List String) :
    deleteSelected l sel = (l.filter fun s => ¬ s.id ∈ sel).map (clearSel sel) := by
  by_cases hsel : sel = []
  · subst hsel
    rw [deleteSelected, if_pos rfl]
    rw [List.filter_eq_self.mpr fun a _ => by simp]
    exact (map_self_of_fix fun s _ => clearSel_nil s).symm
  · rw [deleteSelected, if_neg hsel]
    exact delete_core sel l

theorem resolveAll_live (l : List Shape) :
    ∀ s2 ∈ resolveAllBindings l, connOK s2 →
      BindingLive (resolveAllBindings l) s2.startBinding ∧
      BindingLive (resolveAllBindings l) s2.endBinding := by
  intro s2 hs2 hc2
  have hs2' : s2 ∈ bindPassAux resolveStart resolveEnd [] l := by
    rw [resolveAllBindings] at hs2
    exact hs2
  have h := resolve_pass_idlive (l.map Shape.id) l [] (by simp)
    (fun u hu => absurd hu (List.not_mem_nil u)) s2 hs2' hc2
  constructor
  · intro b hb
    have hmem := h.1 b hb
    rw [← resolveAll_ids l] at hmem
    exact findShape_of_mem_ids hmem
  · intro b hb
    have hmem := h.2 b hb
    rw [← resolveAll_ids l] at hmem
    exact findShape_of_mem_ids hmem

/-- C6 (amended): (1) `deleteSelected` keeps exactly the shapes whose id is
not selected, in order, applying `clearSel` to each survivor; (2) `clearSel`
changes nothing but the two binding fields, clearing exactly the bindings
whose target id is among the deleted ids; (3) `resolveAllBindings` leaves no
dangling binding on any line/arrow shape with ≥ 2 points (the claim's
unconditional "every binding" fails for shapes the loop skips: see
`resolve_dangling_cex`). -/
theorem delete_and_resolve_repair (l : List Shape) (sel : List String) :
    (deleteSelected l sel = (l.filter fun s => ¬ s.id ∈ sel).map (clearSel sel)) ∧
    (∀ s : Shape, styleOf (clearSel sel s) = styleOf s ∧
      (clearSel sel s).points = s.points ∧
      ((clearSel sel s).startBinding =
        match s.startBinding with
        | some b => if b.shapeId ∈ sel then none else some b
        | none => none) ∧
      ((clearSel sel s).endBinding =
        match s.endBinding with
        | some b => if b.shapeId ∈ sel then none else some b
        | none => none)) ∧
    (∀ s2 ∈ resolveAllBindings l, connOK s2 →
      BindingLive (resolveAllBindings l) s2.startBinding ∧
      BindingLive (resolveAllBindings l) s2.endBinding) :=
  ⟨delete_filter_map l sel, fun s => ⟨rfl, rfl, rfl, rfl⟩, resolveAll_live l⟩

/-- Witness for `delete_and_resolve_repair` on a concrete document: deleting
the rectangle `r0` from `[c5rect, c5line]`. -/
theorem delete_and_resolve_repair_witness :
    (deleteSelected [c5rect, c5line] ["r0"] =
      (([c5rect, c5line].filter fun s => ¬ s.id ∈ ["r0"]).map (clearSel ["r0"]))) ∧
    (∀ s : Shape, styleOf (clearSel ["r0"] s) = styleOf s ∧
      (clearSel ["r0"] s).points = s.points ∧
      ((clearSel ["r0"] s).startBinding =
        match s.startBinding with
        | some b => if b.shapeId ∈ ["r0"] then none else some b
        | none => none) ∧
      ((clearSel ["r0"] s).endBinding =
        match s.endBinding with
        | some b => if b.shapeId ∈ ["r0"] then none else some b
        | none => none)) ∧
    (∀ s2 ∈ resolveAllBindings [c5rect, c5line], connOK s2 →
      BindingLive (resolveAllBindings [c5rect, c5line]) s2.startBinding ∧
      BindingLive (resolveAllBindings [c5rect, c5line]) s2.endBinding) :=
  delete_and_resolve_repair [c5rect, c5line] ["r0"]

/-- A one-point line with a binding whose target does not exist. -/
def cexShort : Shape := mkLine "x" [⟨0, 0⟩] (some ⟨"zz", ⟨1, 0⟩⟩) none

/-- C6 counterexample: `resolveAllBindings` skips connectors with fewer than
2 points, so a dangling binding on such a shape is **not** cleared — the
claim's "clears every binding whose target id no longer exists" is false as
stated. -/
theorem resolve_dangling_cex :
    resolveAllBindings [cexShort] = [cexShort] ∧
    cexShort.startBinding = some ⟨"zz", ⟨1, 0⟩⟩ ∧
    findShape [cexShort] "zz" = none := by
  refine ⟨?_, rfl, ?_⟩
  · rw [resolveAllBindings, bindPassAux, if_neg (by decide), bindPassAux]
    rfl
  · rw [findShape_cons, if_neg (by decide)]
    rfl

/-! ## Claim C7: minimum-size rejection in `finishDraw` -/

/-- The rejection condition as the claim states it: a container under 5×5 in
both dimensions, a line/arrow whose two endpoints are under 5 units apart,
or a freehand stroke with fewer than 3 recorded points. -/
def smallClaim (ds : Shape) : Prop :=
  (ds.type ∈ CONTAINER_TYPES ∧ ds.width < 5 ∧ ds.height < 5) ∨
  ((ds.type = "line" ∨ ds.type = "arrow") ∧
    ∃ p0 p1 rest, ds.points = some (p0 :: p1 :: rest) ∧
      distance p0.x p0.y p1.x p1.y < 5) ∨
  (ds.type = "freehand" ∧ ds.points.isSome ∧ numPoints ds < 3)

theorem tooSmall_iff (ds : Shape) : tooSmall ds ↔ smallClaim ds := by
  by_cases h1 : ds.type ∈ CONTAINER_TYPES
  · have hns := container_not_special ds.type h1
    rw [tooSmall, if_pos h1]
    constructor
    · intro h
      exact Or.inl ⟨h1, h⟩
    · rintro (⟨-, h⟩ | ⟨hla, -⟩ | ⟨hfh, -⟩)
      · exact h
      · exact absurd (hla.symm.imp Eq.symm Eq.symm).symm (by
          rcases hla with h | h
          · exact absurd (Or.inl h) hns.1
          · exact absurd (Or.inr h) hns.1)
      · exact absurd hfh hns.2
  · rw [tooSmall, if_neg h1]
    by_cases h2 : (ds.type = "line" ∨ ds.type = "arrow") ∧ ds.points.isSome
    · rw [if_pos h2]
      have hnotfh : ¬ ds.type = "freehand" := by
        rcases h2.1 with h | h <;> rw [h] <;> decide
      cases hp : ds.points with
      | none =>
          rw [hp] at h2
          simp at h2
      | some ps =>
          cases ps with
          | nil =>
              constructor
              · intro h
                cases h
              · rintro (⟨hc, -⟩ | ⟨-, p0, p1, rest, hpe, -⟩ | ⟨hfh, -⟩)
                · exact absurd hc h1
                · rw [hp] at hpe
                  cases hpe
                · exact absurd hfh hnotfh
          | cons p0 tail =>
              cases tail with
              | nil =>
                  constructor
                  · intro h
                    cases h
                  · rintro (⟨hc, -⟩ | ⟨-, q0, q1, rest, hpe, -⟩ | ⟨hfh, -⟩)
                    · exact absurd hc h1
                    · rw [hp] at hpe
                      injection hpe with hpe2
                      cases hpe2
                    · exact absurd hfh hnotfh
              | cons p1 rest =>
                  constructor
                  · intro h
                    exact Or.inr (Or.inl ⟨h2.1, p0, p1, rest, hp, h⟩)
                  · rintro (⟨hc, -⟩ | ⟨-, q0, q1, qrest, hpe, hd⟩ | ⟨hfh, -⟩)
                    · exact absurd hc h1
                    · rw [hp] at hpe
                      injection hpe with hpe2
                      injection hpe2 with hq0 hpe3
                      injection hpe3 with hq1 hqrest
                      subst hq0
                      subst hq1
                      exact hd
                    · exact absurd hfh hnotfh
    · rw [if_neg h2]
      by_cases h3 : ds.type = "freehand" ∧ ds.points.isSome
      · rw [if_pos h3]
        constructor
        · intro h
          exact Or.inr (Or.inr ⟨h3.1, h3.2, h⟩)
        · rintro (⟨hc, -⟩ | ⟨hla, p0, p1, rest, hpe, -⟩ | ⟨-, -, h⟩)
          · exact absurd hc h1
          · exact absurd ⟨hla, by rw [hpe]; rfl⟩ h2
          · exact h
      · rw [if_neg h3]
        constructor
        · intro h
          cases h
        · rintro (⟨hc, -⟩ | ⟨hla, p0, p1, rest, hpe, -⟩ | ⟨hfh, hs, -⟩)
          · exact absurd hc h1
          · exact absurd ⟨hla, by rw [hpe]; rfl⟩ h2
          · exact absurd ⟨hfh, hs⟩ h3

theorem commitShape_id (ds : Shape) (hover : Option Snap) (lbl : Option String) :
    (commitShape ds hover lbl).id = ds.id := by
  unfold commitShape
  cases lbl <;> cases hover <;> dsimp only <;> split_ifs <;> rfl

/-- C7: pointer-up after a draw gesture discards the in-progress shape and
leaves the shape list and history stack unchanged exactly when the shape is
below the minimum-size threshold (container under 5×5 in both dimensions,
line/arrow endpoints under 5 units apart, freehand with fewer than 3
points); otherwise the committed shape is appended to the list, history gets
a snapshot of the pre-existing list, and the new shape is the sole
selection. -/
theorem finishDraw_min_size (st : EditorState) (ds : Shape) (hover : Option Snap)
    (lbl : Option String) :
    (smallClaim ds ↔ ((finishDraw st ds hover lbl).shapes = st.shapes ∧
      (finishDraw st ds hover lbl).hist = st.hist)) ∧
    (smallClaim ds → finishDraw st ds hover lbl = st) ∧
    (¬ smallClaim ds →
      (finishDraw st ds hover lbl).shapes = st.shapes ++ [commitShape ds hover lbl] ∧
      (finishDraw st ds hover lbl).selectedIds = [ds.id] ∧
      (finishDraw st ds hover lbl).hist = histPush st.hist st.shapes) := by
  have hiff := tooSmall_iff ds
  by_cases hts : tooSmall ds
  · have hsm : smallClaim ds := hiff.mp hts
    rw [finishDraw, if_pos hts]
    exact ⟨⟨fun _ => ⟨rfl, rfl⟩, fun _ => hsm⟩, fun _ => rfl, fun hn => absurd hsm hn⟩
  · have hsm : ¬ smallClaim ds := fun h => hts (hiff.mpr h)
    rw [finishDraw, if_neg hts]
    refine ⟨⟨fun h => absurd h hsm, ?_⟩, fun h => absurd h hsm,
      fun _ => ⟨rfl, by rw [commitShape_id], rfl⟩⟩
    rintro ⟨hshapes, -⟩
    exfalso
    have hlen := congrArg List.length hshapes
    simp at hlen

/-- Witness for `finishDraw_min_size`: committing a 40×30 rectangle. -/
theorem finishDraw_min_size_witness :
    ¬ smallClaim (mkBox "d1" "rectangle" 0 0 40 30) ∧
    ((finishDraw ⟨[], ⟨[], []⟩, []⟩ (mkBox "d1" "rectangle" 0 0 40 30) none none).shapes =
      [] ++ [commitShape (mkBox "d1" "rectangle" 0 0 40 30) none none] ∧
     (finishDraw ⟨[], ⟨[], []⟩, []⟩ (mkBox "d1" "rectangle" 0 0 40 30) none none).selectedIds =
      [(mkBox "d1" "rectangle" 0 0 40 30).id] ∧
     (finishDraw ⟨[], ⟨[], []⟩, []⟩ (mkBox "d1" "rectangle" 0 0 40 30) none none).hist =
      histPush ⟨[], []⟩ []) := by
  have hns : ¬ smallClaim (mkBox "d1" "rectangle" 0 0 40 30) := by
    rintro (⟨-, hw, -⟩ | ⟨hla, -⟩ | ⟨hfh, -⟩)
    · rw [show (mkBox "d1" "rectangle" 0 0 40 30).width = 40 from rfl] at hw
      norm_num at hw
    · rcases hla with h | h <;> exact absurd h (by decide)
    · exact absurd hfh (by decide)
  exact ⟨hns, ((finishDraw_min_size ⟨[], ⟨[], []⟩, []⟩ (mkBox "d1" "rectangle" 0 0 40 30)
    none none).2.2) hns⟩

/-! ## Claim C2: the spec's end-to-end binding scenario -/

/-- Rectangle A of the scenario, box `(0, 0, 100, 100)`. -/
def c2A : Shape := mkBox "a" "rectangle" 0 0 100 100

/-- Rectangle B of the scenario, box `(300, 0, 100, 100)`. -/
def c2B : Shape := mkBox "b" "rectangle" 300 0 100 100

theorem c2A_bounds : getBounds c2A = ⟨0, 0, 100, 100⟩ := by
  rw [getBounds_container c2A (by decide)]
  rfl

theorem c2B_bounds : getBounds c2B = ⟨300, 0, 100, 100⟩ := by
  rw [getBounds_container c2B (by decide)]
  rfl

/-- Boundary point of A toward the press point `(95, 50)`: the right-edge
midpoint `(100, 50)`. -/
theorem c2A_bp95 : getBoundaryPoint c2A 95 50 = ⟨100, 50⟩ := by
  unfold getBoundaryPoint
  rw [c2A_bounds]
  dsimp only
  rw [if_neg (by decide : ¬ c2A.type ∈ ELLIPSE_BOUNDARY_TYPES),
    if_neg (by decide : ¬ c2A.type ∈ DIAMOND_BOUNDARY_TYPES)]
  unfold rayRectFromCenter
  dsimp only
  rw [if_neg (by norm_num)]
  have e1 : |(95:ℝ) - (0 + 100 / 2)| = 45 := by
    rw [show (95:ℝ) - (0 + 100 / 2) = 45 by norm_num]
    rw [abs_of_pos]
    norm_num
  have e2 : |(50:ℝ) - (0 + 100 / 2)| = 0 := by norm_num
  rw [e1, e2]
  rw [if_pos (by norm_num : (45:ℝ) / (100 / 2) > 0 / (100 / 2))]
  exact Point.ext (by norm_num) (by norm_num)

/-- Boundary point of B toward `(95, 50)`: the left-edge midpoint
`(300, 50)`. -/
theorem c2B_bp95 : getBoundaryPoint c2B 95 50 = ⟨300, 50⟩ := by
  unfold getBoundaryPoint
  rw [c2B_bounds]
  dsimp only
  rw [if_neg (by decide : ¬ c2B.type ∈ ELLIPSE_BOUNDARY_TYPES),
    if_neg (by decide : ¬ c2B.type ∈ DIAMOND_BOUNDARY_TYPES)]
  unfold rayRectFromCenter
  dsimp only
  rw [if_neg (by norm_num)]
  have e1 : |(95:ℝ) - (300 + 100 / 2)| = 255 := by
    rw [show (95:ℝ) - (300 + 100 / 2) = -255 by norm_num]
    rw [abs_neg, abs_of_pos]
    norm_num
  have e2 : |(50:ℝ) - (0 + 100 / 2)| = 0 := by norm_num
  rw [e1, e2]
  rw [if_pos (by norm_num : (255:ℝ) / (100 / 2) > 0 / (100 / 2))]
  exact Point.ext (by norm_num) (by norm_num)

/-- Boundary point of B toward the release point `(305, 50)`: also
`(300, 50)`. -/
theorem c2B_bp305 : getBoundaryPoint c2B 305 50 = ⟨300, 50⟩ := by
  unfold getBoundaryPoint
  rw [c2B_bounds]
  dsimp only
  rw [if_neg (by decide : ¬ c2B.type ∈ ELLIPSE_BOUNDARY_TYPES),
    if_neg (by decide : ¬ c2B.type ∈ DIAMOND_BOUNDARY_TYPES)]
  unfold rayRectFromCenter
  dsimp only
  rw [if_neg (by norm_num)]
  have e1 : |(305:ℝ) - (300 + 100 / 2)| = 45 := by
    rw [show (305:ℝ) - (300 + 100 / 2) = -45 by norm_num]
    rw [abs_neg, abs_of_pos]
    norm_num
  have e2 : |(50:ℝ) - (0 + 100 / 2)| = 0 := by norm_num
  rw [e1, e2]
  rw [if_pos (by norm_num : (45:ℝ) / (100 / 2) > 0 / (100 / 2))]
  exact Point.ext (by norm_num) (by norm_num)

theorem c2_dist5A : distance 95 50 100 50 = 5 := by
  unfold distance
  rw [show ((100:ℝ) - 95) ^ 2 + ((50:ℝ) - 50) ^ 2 = 5 ^ 2 by norm_num]
  exact Real.sqrt_sq (by norm_num)

theorem c2_dist205 : distance 95 50 300 50 = 205 := by
  unfold distance
  rw [show ((300:ℝ) - 95) ^ 2 + ((50:ℝ) - 50) ^ 2 = 205 ^ 2 by norm_num]
  exact Real.sqrt_sq (by norm_num)

theorem c2_dist5B : distance 305 50 300 50 = 5 := by
  unfold distance
  rw [show ((300:ℝ) - 305) ^ 2 + ((50:ℝ) - 50) ^ 2 = 5 ^ 2 by norm_num]
  exact Real.sqrt_sq (by norm_num)

theorem c2_dist200 : distance 100 50 300 50 = 200 := by
  unfold distance
  rw [show ((300:ℝ) - 100) ^ 2 + ((50:ℝ) - 50) ^ 2 = 200 ^ 2 by norm_num]
  exact Real.sqrt_sq (by norm_num)

/-- `atan2 0 50` points along the positive x axis. -/
theorem dirOfVec_50_0 : dirOfVec 50 0 = ⟨1, 0⟩ := by
  unfold dirOfVec
  rw [if_neg (by norm_num)]
  have hs : Real.sqrt ((50:ℝ) ^ 2 + 0 ^ 2) = 50 := sqrt_eval (by norm_num) (by norm_num)
  rw [hs]
  exact Dir.ext (by norm_num) (by norm_num)

/-- `atan2 0 (-50)` points along the negative x axis. -/
theorem dirOfVec_neg50_0 : dirOfVec (-50) 0 = ⟨-1, 0⟩ := by
  unfold dirOfVec
  rw [if_neg (by norm_num)]
  have hs : Real.sqrt ((-50:ℝ) ^ 2 + 0 ^ 2) = 50 := sqrt_eval (by norm_num) (by norm_num)
  rw [hs]
  exact Dir.ext (by norm_num) (by norm_num)

/-- The snap record built on A for boundary point `(100, 50)`. -/
theorem c2_snapA : mkSnap c2A ⟨100, 50⟩ = ⟨"a", ⟨1, 0⟩, 100, 50⟩ := by
  unfold mkSnap
  rw [c2A_bounds]
  dsimp only
  rw [show (100:ℝ) - (0 + 100 / 2) = 50 by norm_num,
    show (50:ℝ) - (0 + 100 / 2) = 0 by norm_num, dirOfVec_50_0]
  rfl

/-- The snap record built on B for boundary point `(300, 50)`. -/
theorem c2_snapB : mkSnap c2B ⟨300, 50⟩ = ⟨"b", ⟨-1, 0⟩, 300, 50⟩ := by
  unfold mkSnap
  rw [c2B_bounds]
  dsimp only
  rw [show (300:ℝ) - (300 + 100 / 2) = -50 by norm_num,
    show (50:ℝ) - (0 + 100 / 2) = 0 by norm_num, dirOfVec_neg50_0]
  rfl

/-- Press-point query: `(95, 50)` with no exclusions snaps to A's right
edge (d = 5 on A beats the initial 20; d = 205 on B does not beat 5). -/
theorem c2_fnbp1 : findNearestBoundaryPoint [c2A, c2B] 95 50 [] = some ⟨"a", ⟨1, 0⟩, 100, 50⟩ := by
  rw [findNearestBoundaryPoint, fnbpAux, if_neg (by decide)]
  dsimp only
  rw [c2A_bp95]
  dsimp only
  rw [c2_dist5A, if_pos (show (5:ℝ) < SNAP_DISTANCE by norm_num [SNAP_DISTANCE]), c2_snapA]
  rw [fnbpAux, if_neg (by decide)]
  dsimp only
  rw [c2B_bp95]
  dsimp only
  rw [c2_dist205, if_neg (by norm_num : ¬ (205:ℝ) < 5), fnbpAux]

/-- Release-point query: `(305, 50)` excluding A snaps to B's left edge. -/
theorem c2_fnbp2 :
    findNearestBoundaryPoint [c2A, c2B] 305 50 ["a"] = some ⟨"b", ⟨-1, 0⟩, 300, 50⟩ := by
  rw [findNearestBoundaryPoint, fnbpAux, if_pos (by decide)]
  rw [fnbpAux, if_neg (by decide)]
  dsimp only
  rw [c2B_bp305]
  dsimp only
  rw [c2_dist5B, if_pos (show (5:ℝ) < SNAP_DISTANCE by norm_num [SNAP_DISTANCE]), c2_snapB]
  rw [fnbpAux]

/-- The in-progress connector right after pointer-down at `(95, 50)`. -/
noncomputable def c2ds0 : Shape := startConnectorDraw [c2A, c2B] "arrow" 95 50 "arr" 7

/-- The degenerate two-point arrow created at pointer-down: both endpoints
snapped to `(100, 50)`, start bound to A at angle `(1, 0)`. -/
noncomputable def c2arrow0 : Shape :=
  { createBase "arr" "arrow" 7 with
    points := some [⟨100, 50⟩, ⟨100, 50⟩],
    startBinding := some ⟨"a", ⟨1, 0⟩⟩,
    arrowHead := true }

theorem c2_ds0_eq : c2ds0 = c2arrow0 := by
  unfold c2ds0 startConnectorDraw
  rw [c2_fnbp1]
  rfl

/-- The drag-move result and live hover snap at `(305, 50)`. -/
noncomputable def c2dm : Shape × Option Snap := connectorDrawMove [c2A, c2B] c2ds0 305 50

/-- The arrow as updated by the drag move: second endpoint snapped to
`(300, 50)`. -/
noncomputable def c2arrow1 : Shape :=
  { createBase "arr" "arrow" 7 with
    points := some [⟨100, 50⟩, ⟨300, 50⟩],
    startBinding := some ⟨"a", ⟨1, 0⟩⟩,
    arrowHead := true }

theorem c2_dm_eq : c2dm = (c2arrow1, some ⟨"b", ⟨-1, 0⟩, 300, 50⟩) := by
  unfold c2dm connectorDrawMove
  rw [c2_ds0_eq]
  dsimp only
  rw [show c2arrow0.startBinding = some ⟨"a", ⟨1, 0⟩⟩ from rfl]
  dsimp only
  rw [c2_fnbp2]
  rfl

/-- The committed arrow: the hover snap on B becomes the end binding. -/
noncomputable def c2arrow : Shape :=
  { createBase "arr" "arrow" 7 with
    points := some [⟨100, 50⟩, ⟨300, 50⟩],
    startBinding := some ⟨"a", ⟨1, 0⟩⟩,
    endBinding := some ⟨"b", ⟨-1, 0⟩⟩,
    arrowHead := true }

theorem c2_not_small : ¬ tooSmall c2arrow1 := by
  intro h
  unfold tooSmall at h
  rw [if_neg (by decide : ¬ c2arrow1.type ∈ CONTAINER_TYPES), if_pos (by decide)] at h
  rw [show c2arrow1.points = some [⟨100, 50⟩, ⟨300, 50⟩] from rfl] at h
  dsimp only at h
  rw [c2_dist200] at h
  exact absurd h (by norm_num)

theorem c2_commit : commitShape c2arrow1 (some ⟨"b", ⟨-1, 0⟩, 300, 50⟩) none = c2arrow := by
  unfold commitShape
  dsimp only
  rw [if_pos (by decide : (c2arrow1.type = "line" ∨ c2arrow1.type = "arrow") ∧
    (some (⟨"b", ⟨-1, 0⟩, 300, 50⟩ : Snap)).isSome = true)]
  rfl

/-- The editor state after the finished draw, starting from shapes
`[A, B]`, empty history and empty selection. -/
noncomputable def c2st : EditorState := finishDraw ⟨[c2A, c2B], ⟨[], []⟩, []⟩ c2dm.1 c2dm.2 none

theorem c2_st_eq : c2st = ⟨[c2A, c2B, c2arrow], ⟨[[c2A, c2B]], []⟩, ["arr"]⟩ := by
  unfold c2st
  rw [c2_dm_eq]
  dsimp only
  rw [finishDraw, if_neg c2_not_small, c2_commit]
  rfl

/-- Rectangle A after `Shapes.move(A, 0, 200)`: box `(0, 200, 100, 100)`. -/
def c2A2 : Shape := mkBox "a" "rectangle" 0 200 100 100

theorem c2_moveA : moveShape c2A 0 200 = c2A2 := by
  unfold moveShape
  rw [show c2A.points = none from rfl]
  dsimp only
  simp only [c2A, c2A2, mkBox, createBase, Shape.mk.injEq]
  norm_num

theorem c2_moved : moveFirst "a" 0 200 [c2A, c2B, c2arrow] = [c2A2, c2B, c2arrow] := by
  rw [moveFirst, if_pos (show c2A.id = "a" from rfl), c2_moveA]

theorem c2A2_bounds : getBounds c2A2 = ⟨0, 200, 100, 100⟩ := by
  rw [getBounds_container c2A2 (by decide)]
  rfl

/-- Re-resolving the stored angle `(1, 0)` against the moved A lands on its
new right-edge midpoint `(100, 250)`. -/
theorem c2_gbpfa : getBoundaryPointFromAngle c2A2 ⟨1, 0⟩ = ⟨100, 250⟩ := by
  unfold getBoundaryPointFromAngle getBoundaryPoint
  rw [c2A2_bounds]
  dsimp only
  rw [if_neg (by decide : ¬ c2A2.type ∈ ELLIPSE_BOUNDARY_TYPES),
    if_neg (by decide : ¬ c2A2.type ∈ DIAMOND_BOUNDARY_TYPES)]
  unfold rayRectFromCenter
  dsimp only
  rw [if_neg (by norm_num)]
  have e1 : |(0:ℝ) + 100 / 2 + 1 * 10000 - (0 + 100 / 2)| = 10000 := by
    rw [show (0:ℝ) + 100 / 2 + 1 * 10000 - (0 + 100 / 2) = 10000 by norm_num]
    rw [abs_of_pos]
    norm_num
  have e2 : |(200:ℝ) + 100 / 2 + 0 * 10000 - (200 + 100 / 2)| = 0 := by norm_num
  rw [e1, e2]
  rw [if_pos (by norm_num : (10000:ℝ) / (100 / 2) > 0 / (100 / 2))]
  exact Point.ext (by norm_num) (by norm_num)

/-- The arrow after `updateBindings` re-resolves its start binding against
the moved A. -/
noncomputable def c2arrowM : Shape := { c2arrow with points := some [⟨100, 250⟩, ⟨300, 50⟩] }

theorem c2_findA2 : findShape [c2A2, c2B, c2arrow] "a" = some c2A2 := by
  rw [findShape_cons, if_pos (show c2A2.id = "a" from rfl)]

theorem c2_upd_start (look : List Shape) (hf : findShape look "a" = some c2A2) :
    updateStart "a" look c2arrow = c2arrowM := by
  simp only [updateStart, show c2arrow.startBinding = some ⟨"a", ⟨1, 0⟩⟩ from rfl,
    if_pos (show ("a" : String) = "a" from rfl), hf, c2_gbpfa]
  rfl

theorem c2_upd_end (look : List Shape) : updateEnd "a" look c2arrowM = c2arrowM := by
  simp only [updateEnd, show c2arrowM.endBinding = some ⟨"b", ⟨-1, 0⟩⟩ from rfl]
  rw [if_neg (by decide : ¬ ("b" : String) = "a")]

theorem c2_update : updateBindings [c2A2, c2B, c2arrow] "a" = [c2A2, c2B, c2arrowM] := by
  unfold updateBindings
  rw [bindPassAux, if_neg (by decide : ¬ connOK c2A2)]
  rw [bindPassAux, if_neg (by decide : ¬ connOK c2B)]
  rw [bindPassAux, if_pos (by decide : connOK c2arrow)]
  dsimp only
  simp only [List.nil_append, List.cons_append, List.append_nil]
  rw [c2_upd_start [c2A2, c2B, c2arrow] c2_findA2, c2_upd_end, bindPassAux]

/-- The shape list after moving A by `(0, 200)` and propagating bindings. -/
noncomputable def c2final : List Shape := updateBindings (moveFirst "a" 0 200 c2st.shapes) "a"

/-- **C2**: in the spec's end-to-end scenario — rectangle A with box
`(0, 0, 100, 100)`, rectangle B with box `(300, 0, 100, 100)`, and an arrow
drawn from `(95, 50)` to `(305, 50)` — the committed arrow is appended with
`startBinding` on A at angle `(cos, sin) = (1, 0)`, `endBinding` on B at
angle `(-1, 0)`, and literal endpoints exactly `(100, 50)` and `(300, 50)`;
after moving A by `(0, 200)` (to origin `(0, 200)`) and propagating via
`updateBindings`, the arrow's start point is exactly `(100, 250)`. -/
theorem end_to_end_scenario :
    c2st.shapes = [c2A, c2B, c2arrow] ∧
    c2arrow.startBinding = some ⟨c2A.id, ⟨1, 0⟩⟩ ∧
    c2arrow.endBinding = some ⟨c2B.id, ⟨-1, 0⟩⟩ ∧
    c2arrow.points = some [⟨100, 50⟩, ⟨300, 50⟩] ∧
    moveShape c2A 0 200 = c2A2 ∧
    c2final = [c2A2, c2B, c2arrowM] ∧
    c2arrowM.points = some [⟨100, 250⟩, ⟨300, 50⟩] := by
  refine ⟨by rw [c2_st_eq], rfl, rfl, rfl, c2_moveA, ?_, rfl⟩
  unfold c2final
  rw [show c2st.shapes = [c2A, c2B, c2arrow] from by rw [c2_st_eq]]
  rw [c2_moved, c2_update]

end SysDiag
